import Mathlib

/-!
# LIVE555 proxy server: bootstrap and provisioning

A shallow embedding of `proxyServer/live555ProxyServer.cpp` (the `main` program):
the command-line option loop, the post-parse validation, the RTSP server bind
ladder and the per-URL provisioning loop, followed by theorems about them.

Conventions of the embedding.
* A C string (`char*`) is a `String`, one `Char` per `char`; a null pointer is `none`.
* `argv` is the list of the tokens `argv[1] ... argv[argc-1]`; `argc` is its length plus one.
* Machine integers are naturals, reduced modulo `2^w` where the code can wrap.
* A call of `exit(1)` is the outcome `Outcome.exit 1`; an execution that reads
  through a null pointer, reads freed storage or overruns a buffer is the outcome
  `Outcome.undefined`.
-/

namespace ProxyServer

/-! ## Outcomes -/

/-- How a stage of `main` ends: by `exit(status)`, by an undefined operation
(null pointer read, buffer overrun), or normally with a value. -/
inductive Outcome (α : Type) where
  | exit (status : Nat) : Outcome α
  | undefined : Outcome α
  | ok (a : α) : Outcome α
  deriving Repr, DecidableEq

/-- The `usage()` function: prints the usage text and calls `exit(1)`. -/
def usage {α : Type} : Outcome α := Outcome.exit 1

/-! ## Constants and global variables -/

/-- The constant `BUFF_SIZE` (`#define BUFF_SIZE 50`): the longest endpoint name accepted. -/
def BUFF_SIZE : Nat := 50

/-- Modelled from the spec: `UserAuthenticationDatabase` (liveMedia, not part of the
embedded file) is "a set of (username, password) pairs"; kept as a duplicate-free list
in insertion order. -/
abbrev UserAuthenticationDatabase := List (String × String)

/-- Modelled from the spec: `UserAuthenticationDatabase::addUserRecord` adds one
(username, password) pair to the set. -/
def addUserRecord (db : UserAuthenticationDatabase) (user pass : String) :
    UserAuthenticationDatabase :=
  if (user, pass) ∈ db then db else db ++ [(user, pass)]

/-- The global variables of the program, with one extra field, `processed`, that is
not in the source: the options the `switch` has handled so far, each with the value
tokens it consumed, in order. It is only written, never read, by the code below. -/
structure Globals where
  authDB : Option UserAuthenticationDatabase := none
  authDBForREGISTER : Option UserAuthenticationDatabase := none
  verbosityLevel : Int := 0
  interPacketGapMaxTime : Nat := 0
  streamRTPOverTCP : Bool := false
  tunnelOverHTTPPortNum : Nat := 0
  rtspServerPortNum : Nat := 554
  proxyREGISTERRequests : Bool := false
  proxyAuth : Bool := false
  username : Option String := none
  password : Option String := none
  usernameForREGISTER : Option String := none
  passwordForREGISTER : Option String := none
  endpoint : Option String := none
  credentialUsername : Option String := none
  credentialPassword : Option String := none
  processed : List (Char × List String) := []
  deriving Repr, DecidableEq

/-- The globals as initialised at program start. -/
def initialGlobals : Globals := {}

/-- Records that the `switch` handled option letter `c` with value tokens `vals`. -/
def Globals.note (g : Globals) (c : Char) (vals : List String) : Globals :=
  { g with processed := g.processed ++ [(c, vals)] }

/-! ## C library: `sscanf` with `%hu` and `%u` -/

/-- C `isspace` in the "C" locale. -/
def isspace (c : Char) : Bool :=
  c == ' ' || c == '\t' || c == '\n' || c == '\x0b' || c == '\x0c' || c == '\r'

/-- C `isdigit`. -/
def isdigit (c : Char) : Bool := decide ('0' ≤ c) && decide (c ≤ '9')

/-- Skips the leading white space of the input, as every numeric conversion does. -/
def skipSpace : List Char → List Char
  | [] => []
  | c :: cs => if isspace c then skipSpace cs else c :: cs

/-- Reads the longest run of decimal digits at the front of the input, accumulating its
value onto `acc`. -/
def readDigits : List Char → Nat → Nat
  | [], acc => acc
  | c :: cs, acc => if isdigit c then readDigits cs (10 * acc + (c.toNat - '0'.toNat)) else acc

/-- The conversion of `sscanf(s, "%hu", &x)` (`width = 16`) and `sscanf(s, "%u", &x)`
(`width = 32`): `some v` when `sscanf` returns 1 and stores `v`, `none` when it
returns 0 or `EOF`. The C library is not part of the repository; this follows
ISO C `fscanf` (skip white space, optional sign, then a non-empty run of decimal
digits; what follows the digits is left unread) and, for values that do not fit, the
glibc behaviour: the digits are converted as by `strtoul` (64-bit `unsigned long`,
saturating at `ULONG_MAX`, a leading `-` negating modulo `2^64`) and the result is
truncated to the width of the target. -/
def sscanfUnsigned (width : Nat) (s : String) : Option Nat :=
  let s1 := skipSpace s.data
  let negative : Bool := s1.head? == some '-'
  let s2 := if s1.head? = some '-' ∨ s1.head? = some '+' then s1.tail else s1
  match s2 with
  | [] => none
  | c :: r =>
    if isdigit c then
      let n := readDigits (c :: r) 0
      let ul := if 2 ^ 64 ≤ n then 2 ^ 64 - 1
                else if negative then (2 ^ 64 - n) % 2 ^ 64 else n
      some (ul % 2 ^ width)
    else none

/-- The call `sscanf(s, "%hu", &x)` for an `unsigned short` target. -/
def sscanf_hu (s : String) : Option Nat := sscanfUnsigned 16 s

/-- The call `sscanf(s, "%u", &x)` for an `unsigned` target. -/
def sscanf_u (s : String) : Option Nat := sscanfUnsigned 32 s

/-! ## The option loop (source lines 103-221) -/

/-- The character `s[i]` of a C string; the terminating NUL past its last character. -/
def charAt (s : String) (i : Nat) : Char := s.data.getD i '\x00'

/-- The bodies `case 'v'` and `case 'V'`: `verbosityLevel = level`. -/
def caseVerbose (c : Char) (level : Int) (g : Globals) (rest : List String) :
    Outcome (Globals × List String) :=
  .ok (({ g with verbosityLevel := level }).note c [], rest)

/-- The body `case 't'`: `streamRTPOverTCP = True`. -/
def caseT (g : Globals) (rest : List String) : Outcome (Globals × List String) :=
  .ok (({ g with streamRTPOverTCP := true }).note 't' [], rest)

/-- The body `case 'C'`: the client credential, two value tokens. -/
def caseC (g : Globals) : List String → Outcome (Globals × List String)
  | user :: pass :: rest2 =>
    .ok (({ g with proxyAuth := true, credentialUsername := some user,
                   credentialPassword := some pass }).note 'C' [user, pass], rest2)
  | _ => usage -- argc < 4

/-- The body `case 'e'`: `endpoint = argv[2]` and the `strlen(argv[2]) > BUFF_SIZE`
test, made without looking at `argc`. With no token after the option, `argv[2]` is the
null pointer that ends `argv`, and `strlen` reads through it. -/
def caseE (g : Globals) : List String → Outcome (Globals × List String)
  | [] => .undefined
  | name :: rest1 =>
    if name.length > BUFF_SIZE then usage
    else .ok (({ g with endpoint := some name }).note 'e' [name], rest1)

/-- The body `case 'T'`: the HTTP tunnel port, one value token. -/
def caseTunnel (g : Globals) : List String → Outcome (Globals × List String)
  | [] => usage
  | port :: rest1 =>
    if charAt port 0 ≠ '-' then
      match sscanf_hu port with
      | some v =>
        if v > 0 then .ok (({ g with tunnelOverHTTPPortNum := v }).note 'T' [port], rest1)
        else usage
      | none => usage
    else usage

/-- The body `case 'p'`: the RTSP server port, one value token. -/
def caseP (g : Globals) : List String → Outcome (Globals × List String)
  | [] => usage
  | port :: rest1 =>
    if charAt port 0 ≠ '-' then
      match sscanf_hu port with
      | some v =>
        if v > 0 then .ok (({ g with rtspServerPortNum := v }).note 'p' [port], rest1)
        else usage
      | none => usage
    else usage

/-- The body `case 'u'`: the back-end credential, two value tokens. -/
def caseU (g : Globals) : List String → Outcome (Globals × List String)
  | user :: pass :: rest2 =>
    .ok (({ g with username := some user, password := some pass }).note 'u' [user, pass], rest2)
  | _ => usage -- argc < 4

/-- The body `case 'U'`: the REGISTER credential, two value tokens; the database is
created on first use and the pair added to it. -/
def caseRegisterUser (g : Globals) : List String → Outcome (Globals × List String)
  | user :: pass :: rest2 =>
    .ok (({ g with usernameForREGISTER := some user, passwordForREGISTER := some pass,
                   authDBForREGISTER :=
                     some (addUserRecord (g.authDBForREGISTER.getD []) user pass) }).note 'U'
           [user, pass], rest2)
  | _ => usage -- argc < 4

/-- The body `case 'R'`: `proxyREGISTERRequests = True`. -/
def caseR (g : Globals) (rest : List String) : Outcome (Globals × List String) :=
  .ok (({ g with proxyREGISTERRequests := true }).note 'R' [], rest)

/-- The body `case 'D'`: the inter-packet gap, one value token. -/
def caseD (g : Globals) : List String → Outcome (Globals × List String)
  | [] => usage
  | secs :: rest1 =>
    if charAt secs 0 ≠ '-' then
      match sscanf_u secs with
      | some v => .ok (({ g with interPacketGapMaxTime := v }).note 'D' [secs], rest1)
      | none => usage
    else usage

/-- One pass through the `switch (opt[1])` and the `++argv; --argc;` that follows it.
`opt` is `argv[1]`, `rest` is `argv[2] ...`; the result holds the new globals and the
new `argv[1] ...`. -/
def switchOption (g : Globals) (opt : String) (rest : List String) :
    Outcome (Globals × List String) :=
  if charAt opt 1 = 'v' then caseVerbose 'v' 1 g rest
  else if charAt opt 1 = 'V' then caseVerbose 'V' 2 g rest
  else if charAt opt 1 = 't' then caseT g rest
  else if charAt opt 1 = 'C' then caseC g rest
  else if charAt opt 1 = 'e' then caseE g rest
  else if charAt opt 1 = 'T' then caseTunnel g rest
  else if charAt opt 1 = 'p' then caseP g rest
  else if charAt opt 1 = 'u' then caseU g rest
  else if charAt opt 1 = 'U' then caseRegisterUser g rest
  else if charAt opt 1 = 'R' then caseR g rest
  else if charAt opt 1 = 'D' then caseD g rest
  else usage

/-- The loop `while(argc > 1) { ... }`. Every pass removes at least one token, so
`fuel = argv.length` passes always suffice (`optionLoop_fuel`). The result holds the
globals and the tokens left over: the first token not starting with `-` and all
tokens after it. -/
def optionLoop : Nat → Globals → List String → Outcome (Globals × List String)
  | _, g, [] => .ok (g, [])
  | 0, g, argv => .ok (g, argv)
  | fuel + 1, g, opt :: rest =>
    if charAt opt 0 ≠ '-' then .ok (g, opt :: rest)
    else
      match switchOption g opt rest with
      | .ok (g1, argv1) => optionLoop fuel g1 argv1
      | .exit n => .exit n
      | .undefined => .undefined

/-! ## Validation after the loop (source lines 223-254) -/

/-- Test `strncmp(s, "rtsp://", 7) == 0`. -/
def isRtspURL (s : String) : Bool := s.data.take 7 == "rtsp://".data

/-- Source lines 244-247: with `-t`, the tunnel port becomes `(portNumBits)(~0)`, the
value that tells the session to stream over TCP without HTTP. -/
def markTCP (g : Globals) : Globals :=
  if g.streamRTPOverTCP then { g with tunnelOverHTTPPortNum := 2 ^ 16 - 1 } else g

/-- Source lines 250-254: with `-C`, the client database holding the one credential. -/
def buildAuthDB (g : Globals) : Globals :=
  if g.proxyAuth then
    { g with authDB := some (addUserRecord []
        (g.credentialUsername.getD "") (g.credentialPassword.getD "")) }
  else g

/-- The checks and the two fix-ups that follow the option loop: at least one URL
unless `-R`, every remaining token an `rtsp://` URL, `-U` only with `-R`, `-t` and
`-T` not both (and the all-ones port that stands for `-t`), and the client `authDB`. -/
def validate (g : Globals) (urls : List String) : Outcome Globals :=
  if urls.length + 1 < 2 ∧ g.proxyREGISTERRequests = false then usage
  else if urls.all isRtspURL = false then usage
  else if g.authDBForREGISTER ≠ none ∧ g.proxyREGISTERRequests = false then usage
  else if g.streamRTPOverTCP = true ∧ g.tunnelOverHTTPPortNum > 0 then usage
  else .ok (buildAuthDB (markTCP g))

/-- Source lines 98-254: the argument check, the option loop and the validation.
An accepted command line yields the final globals and the upstream URLs. -/
def parseArgs (args : List String) : Outcome (Globals × List String) :=
  if args.length + 1 < 2 then usage
  else
    match optionLoop args.length initialGlobals args with
    | .ok (g, urls) =>
      match validate g urls with
      | .ok g1 => .ok (g1, urls)
      | .exit n => .exit n
      | .undefined => .undefined
    | .exit n => .exit n
    | .undefined => .undefined

/-! ## The bind ladder (source lines 57-67 and 255-280) -/

/-- The listener returned by `createRTSPServer`. -/
structure RTSPServer where
  port : Nat
  withREGISTERProxying : Bool
  authDB : Option UserAuthenticationDatabase
  authDBForREGISTER : Option UserAuthenticationDatabase
  deriving Repr, DecidableEq

/-- The environment of the bind attempts: given the ports already tried, in order,
and the port asked for, whether the listener can be created. -/
abbrev BindOracle := List Nat → Nat → Bool

/-- The function `createRTSPServer(port)`: `none` is the null pointer. The second
component is the list of the ports tried so far, extended by this attempt. -/
def createRTSPServer (oracle : BindOracle) (g : Globals) (tried : List Nat) (port : Nat) :
    Option RTSPServer × List Nat :=
  (if oracle tried port then
      some { port := port, withREGISTERProxying := g.proxyREGISTERRequests, authDB := g.authDB,
             authDBForREGISTER :=
               if g.proxyREGISTERRequests then g.authDBForREGISTER else none }
    else none,
   tried ++ [port])

/-- Source lines 258-280. The result holds the globals (with `rtspServerPortNum`
updated), the `rtspServer` pointer, and the list of ports tried. -/
def bindServer (oracle : BindOracle) (g : Globals) :
    Outcome (Globals × Option RTSPServer) × List Nat :=
  let a0 := createRTSPServer oracle g [] g.rtspServerPortNum
  match a0.1 with
  | some s => (.ok (g, some s), a0.2)
  | none =>
    if g.rtspServerPortNum ≠ 554 then
      let g1 := { g with rtspServerPortNum := 554 }
      let a1 := createRTSPServer oracle g1 a0.2 g1.rtspServerPortNum
      match a1.1 with
      | some s => (.ok (g1, some s), a1.2)
      | none =>
        let g2 := { g1 with rtspServerPortNum := 8554 }
        let a2 := createRTSPServer oracle g2 a1.2 g2.rtspServerPortNum
        match a2.1 with
        | some s => (.ok (g2, some s), a2.2)
        | none => (.exit 1, a2.2)
    else (.ok (g, none), a0.2)

/-! ## Stream names and provisioning (source lines 282-312) -/

/-- The characters `sprintf(buf, format, i)` writes for one `int` argument `i ≥ 0`:
ordinary characters are copied, `%%` writes `%`, the first `%d` writes `i` in decimal.
Any other conversion specification, and a `%d` after the argument is used up, is
outside this description: the result is `none`. -/
def sprintfInt : List Char → Option Nat → Option (List Char)
  | [], _ => some []
  | c :: fmt, arg =>
    if c = '%' then
      match fmt, arg with
      | '%' :: fmt1, arg => (sprintfInt fmt1 arg).map fun out => '%' :: out
      | 'd' :: fmt1, some i => (sprintfInt fmt1 none).map fun out => (Nat.repr i).data ++ out
      | _, _ => none
    else (sprintfInt fmt arg).map fun out => c :: out

/-- The number of characters a `std::string` keeps inside the string object itself
(15 in libstdc++); a longer text is kept in heap storage, which the destructor frees. -/
def localCapacity : Nat := 15

/-- The format `epName` of source line 295 when `-e` was given:
`std::string(endpoint).append("-%d").c_str()`. The `std::string` is a temporary that
is destroyed at the end of that statement, before the `sprintf` of line 296 reads
`epName`. A text of at most `localCapacity` characters sits in the storage of the
temporary object and is read back as it was; a longer text sits in heap storage that
has been freed, and reading it is undefined: `none`. -/
def danglingFormat (endpoint : String) : Option (List Char) :=
  if (endpoint.data ++ "-%d".data).length ≤ localCapacity then
    some (endpoint.data ++ "-%d".data)
  else none

/-- The characters the loop body asks `sprintf` to write for the `i`-th URL: the base
name through `"%s"` when there is one URL, else the index through the format
`proxyStream-%d` or, with `-e`, through `danglingFormat`. -/
def formatStreamName (endpoint : Option String) (argc i : Nat) : Option (List Char) :=
  if argc = 2 then
    some (endpoint.getD "proxyStream").data
  else
    match endpoint with
    | some e =>
      match danglingFormat e with
      | some format => sprintfInt format (some i)
      | none => none
    | none => sprintfInt "proxyStream-%d".data (some i)

/-- The contents of `char streamName[BUFF_SIZE+3]` after the `sprintf`; `none` when
`sprintf` has no defined output or the text and its NUL do not fit the buffer. -/
def streamNameOf (endpoint : Option String) (argc i : Nat) : Option String :=
  match formatStreamName endpoint argc i with
  | some cs => if cs.length + 1 ≤ BUFF_SIZE + 3 then some (String.mk cs) else none
  | none => none

/-- The arguments of one `ProxyServerMediaSession::createNew` call. -/
structure ProxySession where
  proxiedStreamURL : String
  streamName : String
  username : Option String
  password : Option String
  tunnelOverHTTPPortNum : Nat
  verbosityLevel : Int
  interPacketGapMaxTime : Nat
  deriving Repr, DecidableEq

/-- The loop `for (i = 1; i < argc; ++i)` from index `i` on, `urls` being
`argv[i] ...`. The result holds the sessions registered with the server, in order. -/
def provisionFrom (g : Globals) (rtspServer : Option RTSPServer) (argc : Nat) :
    Nat → List String → Outcome Unit × List ProxySession
  | _, [] => (.ok (), [])
  | i, url :: urls =>
    match streamNameOf g.endpoint argc i with
    | none => (.undefined, [])
    | some name =>
      match rtspServer with
      | none => (.undefined, []) -- rtspServer->addServerMediaSession(sms) on NULL
      | some _ =>
        let sms : ProxySession :=
          { proxiedStreamURL := url, streamName := name, username := g.username,
            password := g.password, tunnelOverHTTPPortNum := g.tunnelOverHTTPPortNum,
            verbosityLevel := g.verbosityLevel,
            interPacketGapMaxTime := g.interPacketGapMaxTime }
        let r := provisionFrom g rtspServer argc (i + 1) urls
        (r.1, sms :: r.2)

/-- The whole provisioning loop over the upstream URLs. -/
def provision (g : Globals) (rtspServer : Option RTSPServer) (urls : List String) :
    Outcome Unit × List ProxySession :=
  provisionFrom g rtspServer (urls.length + 1) 1 urls

/-! ## The program -/

/-- How a run of `main` ends. -/
inductive Status where
  | exit (status : Nat)
  | undefined
  | serving (rtspServer : Option RTSPServer) (rtspServerPortNum : Nat)
  deriving Repr, DecidableEq

/-- What a run of `main` did: how it ended, which ports it tried to bind, in order,
and which sessions it registered, in order. -/
structure Run where
  status : Status
  attempts : List Nat
  sessions : List ProxySession
  deriving Repr, DecidableEq

/-- The function `main`, up to the entry into the event loop. -/
def main (oracle : BindOracle) (args : List String) : Run :=
  match parseArgs args with
  | .exit n => { status := .exit n, attempts := [], sessions := [] }
  | .undefined => { status := .undefined, attempts := [], sessions := [] }
  | .ok (g, urls) =>
    match bindServer oracle g with
    | (.exit n, tried) => { status := .exit n, attempts := tried, sessions := [] }
    | (.undefined, tried) => { status := .undefined, attempts := tried, sessions := [] }
    | (.ok (g1, rtspServer), tried) =>
      match provision g1 rtspServer urls with
      | (.ok _, sessions) =>
        { status := .serving rtspServer g1.rtspServerPortNum, attempts := tried,
          sessions := sessions }
      | (.exit n, sessions) => { status := .exit n, attempts := tried, sessions := sessions }
      | (.undefined, sessions) =>
        { status := .undefined, attempts := tried, sessions := sessions }

/-- The effect of one successful pass through the switch, option by option. -/
inductive Pass (g : Globals) (rest : List String) (g1 : Globals) (argv1 : List String)
    (c : Char) : Prop where
  | v : c = 'v' → argv1 = rest → g1 = ({ g with verbosityLevel := 1 }).note 'v' [] → Pass g rest g1 argv1 c
  | V : c = 'V' → argv1 = rest → g1 = ({ g with verbosityLevel := 2 }).note 'V' [] → Pass g rest g1 argv1 c
  | t : c = 't' → argv1 = rest → g1 = ({ g with streamRTPOverTCP := true }).note 't' [] →
      Pass g rest g1 argv1 c
  | C (user pass : String) : c = 'C' → rest = user :: pass :: argv1 →
      g1 = ({ g with proxyAuth := true, credentialUsername := some user,
                     credentialPassword := some pass }).note 'C' [user, pass] →
      Pass g rest g1 argv1 c
  | e (name : String) : c = 'e' → rest = name :: argv1 → name.length ≤ BUFF_SIZE →
      g1 = ({ g with endpoint := some name }).note 'e' [name] → Pass g rest g1 argv1 c
  | T (port : String) (v : Nat) : c = 'T' → rest = port :: argv1 → charAt port 0 ≠ '-' →
      sscanf_hu port = some v → 0 < v →
      g1 = ({ g with tunnelOverHTTPPortNum := v }).note 'T' [port] → Pass g rest g1 argv1 c
  | p (port : String) (v : Nat) : c = 'p' → rest = port :: argv1 → charAt port 0 ≠ '-' →
      sscanf_hu port = some v → 0 < v →
      g1 = ({ g with rtspServerPortNum := v }).note 'p' [port] → Pass g rest g1 argv1 c
  | u (user pass : String) : c = 'u' → rest = user :: pass :: argv1 →
      g1 = ({ g with username := some user, password := some pass }).note 'u' [user, pass] →
      Pass g rest g1 argv1 c
  | U (user pass : String) : c = 'U' → rest = user :: pass :: argv1 →
      g1 = ({ g with usernameForREGISTER := some user, passwordForREGISTER := some pass,
                     authDBForREGISTER :=
                       some (addUserRecord (g.authDBForREGISTER.getD []) user pass) }).note 'U'
             [user, pass] →
      Pass g rest g1 argv1 c
  | R : c = 'R' → argv1 = rest → g1 = ({ g with proxyREGISTERRequests := true }).note 'R' [] →
      Pass g rest g1 argv1 c
  | D (secs : String) (v : Nat) : c = 'D' → rest = secs :: argv1 → charAt secs 0 ≠ '-' →
      sscanf_u secs = some v →
      g1 = ({ g with interPacketGapMaxTime := v }).note 'D' [secs] → Pass g rest g1 argv1 c

/-- The heads of the option loop that a run passes through: `Reaches args g argv` says
that the loop started on `args` with the initial globals comes to its test `argc > 1`
with globals `g` and the tokens `argv` still to be read. -/
inductive Reaches (args : List String) : Globals → List String → Prop where
  | start : Reaches args initialGlobals args
  | pass {g g1 : Globals} {opt : String} {rest argv1 : List String} :
      Reaches args g (opt :: rest) → charAt opt 0 = '-' →
      switchOption g opt rest = .ok (g1, argv1) → Reaches args g1 argv1

/-- The option letters the switch has handled so far, in order. -/
def Globals.letters (g : Globals) : List Char := g.processed.map Prod.fst

/-- The value given with the last `-e` among the processed options, if there is one. -/
def customEndpoint (processed : List (Char × List String)) : Option String :=
  processed.foldl (fun acc p => if p.1 = 'e' then p.2.head? else acc) none

/-- The value of a run of decimal digits, most significant digit first. -/
def decimalValue (digits : List Char) : Nat :=
  digits.foldl (fun acc c => 10 * acc + (c.toNat - '0'.toNat)) 0

/-! ## Environments used in the examples -/

/-- An environment in which only port 8554 can be bound. -/
def only8554Free : BindOracle := fun _ port => port == 8554

/-- An environment in which no port can be bound. -/
def noPortFree : BindOracle := fun _ _ => false

/-- An environment in which every port can be bound. -/
def everyPortFree : BindOracle := fun _ _ => true

/-! ## Reading the record of processed options -/

/-- The (username, password) pairs given with the processed options of letter `c`, in
the order in which they were processed. -/
def credentialsOf (c : Char) (processed : List (Char × List String)) : List (String × String) :=
  processed.filterMap fun p =>
    if p.1 = c then
      match p.2 with
      | [user, pass] => some (user, pass)
      | _ => none
    else none

/-- The downstream transport modes of the specification. -/
inductive TransportMode where
  | nativeUDP
  | tcpInterleaved
  | httpTunnel (port : Nat)
  deriving Repr, DecidableEq

/-- The port given with the last `-T` among the processed options, as `sscanf`
converts its token. -/
def lastTunnelPort (processed : List (Char × List String)) : Option Nat :=
  processed.foldl (fun acc p => if p.1 = 'T' then p.2.head?.bind sscanf_hu else acc) none

/-- The transport mode the processed options ask for: TCPInterleaved with `-t`,
HTTPTunnel(P) with `-T P`, NativeUDP with neither. -/
def transportMode (processed : List (Char × List String)) : TransportMode :=
  if 't' ∈ processed.map Prod.fst then .tcpInterleaved
  else
    match lastTunnelPort processed with
    | some port => .httpTunnel port
    | none => .nativeUDP

/-- The number that stands for a transport mode: 0, the all-ones 16-bit value, or the
tunnel port. -/
def TransportMode.encode : TransportMode → Nat
  | .nativeUDP => 0
  | .tcpInterleaved => 2 ^ 16 - 1
  | .httpTunnel port => port

/-! ## Option groups and their order -/

/-- Applies `f` to the value of a normal outcome. -/
def Outcome.map {α β : Type} (f : α → β) : Outcome α → Outcome β
  | .ok a => .ok (f a)
  | .exit n => .exit n
  | .undefined => .undefined

/-- The configuration held in the globals: everything but the record of processed
options, which is not part of the program's state. -/
def Globals.config (g : Globals) : Globals := { g with processed := [] }

/-- A parse outcome with the record of processed options left out. -/
def Outcome.config (o : Outcome (Globals × List String)) : Outcome (Globals × List String) :=
  o.map fun p => (p.1.config, p.2)

/-- The number of value tokens the option with letter `c` takes (specification,
section 6). -/
def arity (c : Char) : Nat :=
  if c = 'C' ∨ c = 'u' ∨ c = 'U' then 2
  else if c = 'e' ∨ c = 'T' ∨ c = 'p' ∨ c = 'D' then 1
  else 0

/-- An option group: a flag token and the value tokens that follow it. -/
structure OptionGroup where
  flag : String
  values : List String
  deriving Repr, DecidableEq

/-- The letter of a group: the second character of its flag token. -/
def OptionGroup.letter (x : OptionGroup) : Char := charAt x.flag 1

/-- The tokens of a group as they stand on the command line. -/
def OptionGroup.tokens (x : OptionGroup) : List String := x.flag :: x.values

/-- A group is well grouped when its flag starts with `-` and is followed by as many
value tokens as its letter takes. -/
abbrev OptionGroup.wellGrouped (x : OptionGroup) : Prop :=
  charAt x.flag 0 = '-' ∧ x.values.length = arity x.letter

/-- Two groups may stand together when they are not the same option and not `-v` with
`-V`. -/
abbrev OptionGroup.compatible (x y : OptionGroup) : Prop :=
  x.letter ≠ y.letter ∧ ¬ (x.letter = 'v' ∧ y.letter = 'V') ∧ ¬ (x.letter = 'V' ∧ y.letter = 'v')

/-- The command line made of the groups, in order, followed by the URLs. -/
def commandLine (groups : List OptionGroup) (urls : List String) : List String :=
  groups.foldr (fun x rest => x.tokens ++ rest) urls

/-- An option the switch has accepted, with the values it stores. -/
inductive ParsedOption where
  | verbose (more : Bool)
  | tcp
  | client (user pass : String)
  | endpoint (name : String)
  | tunnel (token : String) (number : Nat)
  | serverPort (token : String) (number : Nat)
  | upstream (user pass : String)
  | registerUser (user pass : String)
  | register
  | gap (token : String) (seconds : Nat)

/-- The letter of an accepted option. -/
def ParsedOption.letter : ParsedOption → Char
  | .verbose more => if more then 'V' else 'v'
  | .tcp => 't'
  | .client _ _ => 'C'
  | .endpoint _ => 'e'
  | .tunnel _ _ => 'T'
  | .serverPort _ _ => 'p'
  | .upstream _ _ => 'u'
  | .registerUser _ _ => 'U'
  | .register => 'R'
  | .gap _ _ => 'D'

/-- What the case of an accepted option does to the globals. -/
def ParsedOption.apply : ParsedOption → Globals → Globals
  | .verbose more, g =>
    ({ g with verbosityLevel := if more then 2 else 1 }).note (if more then 'V' else 'v') []
  | .tcp, g => ({ g with streamRTPOverTCP := true }).note 't' []
  | .client user pass, g =>
    ({ g with proxyAuth := true, credentialUsername := some user,
              credentialPassword := some pass }).note 'C' [user, pass]
  | .endpoint name, g => ({ g with endpoint := some name }).note 'e' [name]
  | .tunnel token number, g => ({ g with tunnelOverHTTPPortNum := number }).note 'T' [token]
  | .serverPort token number, g => ({ g with rtspServerPortNum := number }).note 'p' [token]
  | .upstream user pass, g =>
    ({ g with username := some user, password := some pass }).note 'u' [user, pass]
  | .registerUser user pass, g =>
    ({ g with usernameForREGISTER := some user, passwordForREGISTER := some pass,
              authDBForREGISTER :=
                some (addUserRecord (g.authDBForREGISTER.getD []) user pass) }).note 'U'
      [user, pass]
  | .register, g => ({ g with proxyREGISTERRequests := true }).note 'R' []
  | .gap token seconds, g => ({ g with interPacketGapMaxTime := seconds }).note 'D' [token]

/-- The option a group with letter `c` and values `vals` is accepted as, `none` when
the switch calls `usage()` on it (`switchOption_group` relates this to the code). -/
def parseGroup (c : Char) (vals : List String) : Option ParsedOption :=
  if c = 'v' then some (.verbose false)
  else if c = 'V' then some (.verbose true)
  else if c = 't' then some .tcp
  else if c = 'C' then
    match vals with
    | [user, pass] => some (.client user pass)
    | _ => none
  else if c = 'e' then
    match vals with
    | [name] => if name.length > BUFF_SIZE then none else some (.endpoint name)
    | _ => none
  else if c = 'T' then
    match vals with
    | [token] =>
      if charAt token 0 ≠ '-' then
        match sscanf_hu token with
        | some v => if v > 0 then some (.tunnel token v) else none
        | none => none
      else none
    | _ => none
  else if c = 'p' then
    match vals with
    | [token] =>
      if charAt token 0 ≠ '-' then
        match sscanf_hu token with
        | some v => if v > 0 then some (.serverPort token v) else none
        | none => none
      else none
    | _ => none
  else if c = 'u' then
    match vals with
    | [user, pass] => some (.upstream user pass)
    | _ => none
  else if c = 'U' then
    match vals with
    | [user, pass] => some (.registerUser user pass)
    | _ => none
  else if c = 'R' then some .register
  else if c = 'D' then
    match vals with
    | [token] =>
      if charAt token 0 ≠ '-' then
        match sscanf_u token with
        | some v => some (.gap token v)
        | none => none
      else none
    | _ => none
  else none

/-- The option loop over a list of groups: the globals after all of them, or the
`exit(1)` of the first group the switch rejects. -/
def runGroups : List OptionGroup → Globals → Outcome Globals
  | [], g => .ok g
  | x :: xs, g =>
    match parseGroup x.letter x.values with
    | some o => runGroups xs (o.apply g)
    | none => .exit 1

/-! # Theorems -/

/-! ## The option loop: what a successful pass does -/

theorem caseC_ok {g g1 : Globals} {rest argv1 : List String}
    (h : caseC g rest = .ok (g1, argv1)) :
    ∃ user pass, rest = user :: pass :: argv1 ∧
      g1 = ({ g with proxyAuth := true, credentialUsername := some user,
                     credentialPassword := some pass }).note 'C' [user, pass] := by
  unfold caseC at h
  split at h
  · cases h; exact ⟨_, _, rfl, rfl⟩
  · cases h

theorem caseE_ok {g g1 : Globals} {rest argv1 : List String}
    (h : caseE g rest = .ok (g1, argv1)) :
    ∃ name, rest = name :: argv1 ∧ name.length ≤ BUFF_SIZE ∧
      g1 = ({ g with endpoint := some name }).note 'e' [name] := by
  unfold caseE at h
  split at h
  · cases h
  · split_ifs at h with hlen
    · cases h
    · cases h; exact ⟨_, rfl, Nat.le_of_not_lt hlen, rfl⟩

theorem caseTunnel_ok {g g1 : Globals} {rest argv1 : List String}
    (h : caseTunnel g rest = .ok (g1, argv1)) :
    ∃ port v, rest = port :: argv1 ∧ charAt port 0 ≠ '-' ∧ sscanf_hu port = some v ∧ 0 < v ∧
      g1 = ({ g with tunnelOverHTTPPortNum := v }).note 'T' [port] := by
  unfold caseTunnel at h
  split at h
  · cases h
  · split_ifs at h with h0
    · split at h
      · split_ifs at h with hv
        · cases h; exact ⟨_, _, rfl, h0, by assumption, hv, rfl⟩
        · cases h
      · cases h
    · cases h

theorem caseP_ok {g g1 : Globals} {rest argv1 : List String}
    (h : caseP g rest = .ok (g1, argv1)) :
    ∃ port v, rest = port :: argv1 ∧ charAt port 0 ≠ '-' ∧ sscanf_hu port = some v ∧ 0 < v ∧
      g1 = ({ g with rtspServerPortNum := v }).note 'p' [port] := by
  unfold caseP at h
  split at h
  · cases h
  · split_ifs at h with h0
    · split at h
      · split_ifs at h with hv
        · cases h; exact ⟨_, _, rfl, h0, by assumption, hv, rfl⟩
        · cases h
      · cases h
    · cases h

theorem caseU_ok {g g1 : Globals} {rest argv1 : List String}
    (h : caseU g rest = .ok (g1, argv1)) :
    ∃ user pass, rest = user :: pass :: argv1 ∧
      g1 = ({ g with username := some user, password := some pass }).note 'u' [user, pass] := by
  unfold caseU at h
  split at h
  · cases h; exact ⟨_, _, rfl, rfl⟩
  · cases h

theorem caseRegisterUser_ok {g g1 : Globals} {rest argv1 : List String}
    (h : caseRegisterUser g rest = .ok (g1, argv1)) :
    ∃ user pass, rest = user :: pass :: argv1 ∧
      g1 = ({ g with usernameForREGISTER := some user, passwordForREGISTER := some pass,
                     authDBForREGISTER :=
                       some (addUserRecord (g.authDBForREGISTER.getD []) user pass) }).note 'U'
             [user, pass] := by
  unfold caseRegisterUser at h
  split at h
  · cases h; exact ⟨_, _, rfl, rfl⟩
  · cases h

theorem caseD_ok {g g1 : Globals} {rest argv1 : List String}
    (h : caseD g rest = .ok (g1, argv1)) :
    ∃ secs v, rest = secs :: argv1 ∧ charAt secs 0 ≠ '-' ∧ sscanf_u secs = some v ∧
      g1 = ({ g with interPacketGapMaxTime := v }).note 'D' [secs] := by
  unfold caseD at h
  split at h
  · cases h
  · split_ifs at h with h0
    · split at h
      · cases h; exact ⟨_, _, rfl, h0, by assumption, rfl⟩
      · cases h
    · cases h

theorem switchOption_ok {g g1 : Globals} {opt : String} {rest argv1 : List String}
    (h : switchOption g opt rest = .ok (g1, argv1)) : Pass g rest g1 argv1 (charAt opt 1) := by
  unfold switchOption at h
  generalize charAt opt 1 = c at h
  by_cases hv : c = 'v'
  · rw [if_pos hv] at h; cases h; exact .v hv rfl rfl
  rw [if_neg hv] at h
  by_cases hV : c = 'V'
  · rw [if_pos hV] at h; cases h; exact .V hV rfl rfl
  rw [if_neg hV] at h
  by_cases ht : c = 't'
  · rw [if_pos ht] at h; cases h; exact .t ht rfl rfl
  rw [if_neg ht] at h
  by_cases hC : c = 'C'
  · rw [if_pos hC] at h; obtain ⟨a, b, h1, h2⟩ := caseC_ok h; exact .C a b hC h1 h2
  rw [if_neg hC] at h
  by_cases he : c = 'e'
  · rw [if_pos he] at h; obtain ⟨a, h1, h2, h3⟩ := caseE_ok h; exact .e a he h1 h2 h3
  rw [if_neg he] at h
  by_cases hT : c = 'T'
  · rw [if_pos hT] at h
    obtain ⟨a, v, h1, h2, h3, h4, h5⟩ := caseTunnel_ok h; exact .T a v hT h1 h2 h3 h4 h5
  rw [if_neg hT] at h
  by_cases hp : c = 'p'
  · rw [if_pos hp] at h
    obtain ⟨a, v, h1, h2, h3, h4, h5⟩ := caseP_ok h; exact .p a v hp h1 h2 h3 h4 h5
  rw [if_neg hp] at h
  by_cases hu : c = 'u'
  · rw [if_pos hu] at h; obtain ⟨a, b, h1, h2⟩ := caseU_ok h; exact .u a b hu h1 h2
  rw [if_neg hu] at h
  by_cases hU : c = 'U'
  · rw [if_pos hU] at h; obtain ⟨a, b, h1, h2⟩ := caseRegisterUser_ok h; exact .U a b hU h1 h2
  rw [if_neg hU] at h
  by_cases hR : c = 'R'
  · rw [if_pos hR] at h; cases h; exact .R hR rfl rfl
  rw [if_neg hR] at h
  by_cases hD : c = 'D'
  · rw [if_pos hD] at h
    obtain ⟨a, v, h1, h2, h3, h4⟩ := caseD_ok h; exact .D a v hD h1 h2 h3 h4
  rw [if_neg hD] at h
  cases h

theorem optionLoop_nil (fuel : Nat) (g : Globals) : optionLoop fuel g [] = .ok (g, []) := by
  cases fuel <;> rfl

theorem optionLoop_cons (fuel : Nat) (g : Globals) (opt : String) (rest : List String) :
    optionLoop (fuel + 1) g (opt :: rest) =
      if charAt opt 0 ≠ '-' then .ok (g, opt :: rest)
      else
        match switchOption g opt rest with
        | .ok (g1, argv1) => optionLoop fuel g1 argv1
        | .exit n => .exit n
        | .undefined => .undefined := by
  rfl

/-- A successful pass hands back a suffix of the tokens it was given. -/
theorem switchOption_length {g g1 : Globals} {opt : String} {rest argv1 : List String}
    (h : switchOption g opt rest = .ok (g1, argv1)) : argv1.length ≤ rest.length := by
  cases switchOption_ok h <;> subst_vars <;> simp only [List.length_cons, le_refl] <;> omega

/-- More fuel than tokens changes nothing: the loop never runs out of passes. -/
theorem optionLoop_fuel (fuel : Nat) :
    ∀ (g : Globals) (argv : List String), argv.length ≤ fuel →
      optionLoop fuel g argv = optionLoop argv.length g argv := by
  induction fuel using Nat.strong_induction_on with
  | _ fuel ih =>
    intro g argv hlen
    cases argv with
    | nil => rw [optionLoop_nil, optionLoop_nil]
    | cons opt rest =>
      cases fuel with
      | zero => simp at hlen
      | succ fuel =>
        simp only [List.length_cons, optionLoop_cons]
        split_ifs with h0
        · rfl
        · cases hs : switchOption g opt rest with
          | exit n => rfl
          | undefined => rfl
          | ok a =>
            obtain ⟨g1, argv1⟩ := a
            have hl := switchOption_length hs
            simp only [List.length_cons, Nat.add_le_add_iff_right] at hlen
            simp only
            rw [ih fuel (Nat.lt_succ_self _) g1 argv1 (le_trans hl hlen)]
            by_cases hr : rest.length = fuel
            · rw [hr, ih fuel (Nat.lt_succ_self _) g1 argv1 (le_trans hl hlen)]
            · rw [ih rest.length (by omega) g1 argv1 hl]

/-- A property of the globals that every successful pass keeps holds when the loop is left. -/
theorem optionLoop_invariant (P : Globals → Prop)
    (hP : ∀ g opt rest g1 argv1, P g → switchOption g opt rest = .ok (g1, argv1) → P g1) :
    ∀ (fuel : Nat) (g : Globals) (argv : List String) (g1 : Globals) (urls : List String),
      P g → optionLoop fuel g argv = .ok (g1, urls) → P g1 := by
  intro fuel
  induction fuel with
  | zero =>
    intro g argv g1 urls hg h
    cases argv <;> (cases h; exact hg)
  | succ fuel ih =>
    intro g argv g1 urls hg h
    cases argv with
    | nil => cases h; exact hg
    | cons opt rest =>
      rw [optionLoop_cons] at h
      split_ifs at h with h0
      · cases h; exact hg
      · cases hs : switchOption g opt rest with
        | exit n => rw [hs] at h; cases h
        | undefined => rw [hs] at h; cases h
        | ok a =>
          obtain ⟨g2, argv2⟩ := a
          rw [hs] at h
          exact ih g2 argv2 g1 urls (hP g opt rest g2 argv2 hg hs) h

theorem reaches_length {args argv : List String} {g : Globals} (h : Reaches args g argv) :
    argv.length ≤ args.length := by
  induction h with
  | start => exact le_refl _
  | pass _ _ hs ih =>
    have := switchOption_length hs
    simp only [List.length_cons] at ih
    omega

/-- From a head the run passes through, the loop gives the result of the whole loop. -/
theorem reaches_optionLoop {args argv : List String} {g : Globals} (h : Reaches args g argv) :
    optionLoop args.length initialGlobals args = optionLoop argv.length g argv := by
  induction h with
  | start => rfl
  | @pass g g1 opt rest argv1 _ h0 hs ih =>
    rw [ih, List.length_cons, optionLoop_cons, if_neg (by simp [h0]), hs]
    exact optionLoop_fuel _ _ _ (switchOption_length hs)

theorem parseArgs_ok {args urls : List String} {g1 : Globals}
    (h : parseArgs args = .ok (g1, urls)) :
    ∃ g, optionLoop args.length initialGlobals args = .ok (g, urls) ∧
      validate g urls = .ok g1 := by
  unfold parseArgs at h
  split_ifs at h
  · cases h
  · cases hl : optionLoop args.length initialGlobals args with
    | exit n => simp only [hl] at h; cases h
    | undefined => simp only [hl] at h; cases h
    | ok a =>
      obtain ⟨g, urls1⟩ := a
      simp only [hl] at h
      cases hv : validate g urls1 with
      | exit n => simp only [hv] at h; cases h
      | undefined => simp only [hv] at h; cases h
      | ok g2 =>
        simp only [hv] at h
        cases h
        exact ⟨g, rfl, hv⟩

theorem parseArgs_of_loop {args urls : List String} {g : Globals}
    (hl : optionLoop args.length initialGlobals args = .ok (g, urls))
    (hv : validate g urls = .exit 1) : parseArgs args = .exit 1 := by
  unfold parseArgs
  split_ifs
  · rfl
  · rw [hl]; simp only [hv]

/-- What validation leaves untouched, and what it has checked. -/
theorem validate_ok {g g1 : Globals} {urls : List String} (h : validate g urls = .ok g1) :
    g1.endpoint = g.endpoint ∧ g1.processed = g.processed ∧
    g1.proxyREGISTERRequests = g.proxyREGISTERRequests ∧
    g1.authDBForREGISTER = g.authDBForREGISTER ∧
    g1.usernameForREGISTER = g.usernameForREGISTER ∧
    (g.authDBForREGISTER ≠ none → g.proxyREGISTERRequests = true) := by
  unfold validate at h
  split_ifs at h with h1 h2 h3 h4
  all_goals cases h
  refine ⟨?_, ?_, ?_, ?_, ?_, ?_⟩
  all_goals try (unfold buildAuthDB markTCP; split_ifs <;> rfl)
  intro hne
  by_contra hR
  exact h3 ⟨hne, by simpa using hR⟩

theorem customEndpoint_append (ps : List (Char × List String)) (c : Char) (vals : List String) :
    customEndpoint (ps ++ [(c, vals)]) = if c = 'e' then vals.head? else customEndpoint ps := by
  simp [customEndpoint, List.foldl_append]

/-- Leaving the loop, `endpoint` is the value of the last `-e` processed, and it is at
most `BUFF_SIZE` characters long. -/
theorem optionLoop_endpoint {args urls : List String} {g : Globals}
    (h : optionLoop args.length initialGlobals args = .ok (g, urls)) :
    g.endpoint = customEndpoint g.processed ∧ ∀ e, g.endpoint = some e → e.length ≤ BUFF_SIZE := by
  refine optionLoop_invariant
    (fun g => g.endpoint = customEndpoint g.processed ∧
      ∀ e, g.endpoint = some e → e.length ≤ BUFF_SIZE) ?_ _ _ _ _ _ ⟨rfl, ?_⟩ h
  · intro g opt rest g1 argv1 hg hs
    obtain ⟨hg1, hg2⟩ := hg
    cases switchOption_ok hs <;> subst_vars <;>
      simp only [Globals.note, customEndpoint_append] <;>
      first
        | exact ⟨by simpa using hg1, hg2⟩
        | (refine ⟨by simp, ?_⟩
           intro e he
           cases he
           assumption)
  · intro e he; cases he

/-- Leaving the loop, the flags of `-t`, `-T`, `-U` and `-R` agree with the options processed. -/
theorem optionLoop_flags {args urls : List String} {g : Globals}
    (h : optionLoop args.length initialGlobals args = .ok (g, urls)) :
    ('t' ∈ g.letters → g.streamRTPOverTCP = true) ∧
    ('T' ∈ g.letters → 0 < g.tunnelOverHTTPPortNum) ∧
    ('U' ∈ g.letters → g.authDBForREGISTER ≠ none) ∧
    (g.usernameForREGISTER ≠ none → g.authDBForREGISTER ≠ none) ∧
    (g.authDBForREGISTER ≠ none → 'U' ∈ g.letters) ∧
    ('R' ∈ g.letters ↔ g.proxyREGISTERRequests = true) := by
  refine optionLoop_invariant
    (fun g => ('t' ∈ g.letters → g.streamRTPOverTCP = true) ∧
      ('T' ∈ g.letters → 0 < g.tunnelOverHTTPPortNum) ∧
      ('U' ∈ g.letters → g.authDBForREGISTER ≠ none) ∧
      (g.usernameForREGISTER ≠ none → g.authDBForREGISTER ≠ none) ∧
      (g.authDBForREGISTER ≠ none → 'U' ∈ g.letters) ∧
      ('R' ∈ g.letters ↔ g.proxyREGISTERRequests = true)) ?_ _ _ _ _ _ ?_ h
  · intro g opt rest g1 argv1 hg hs
    obtain ⟨h1, h2, h3, h4, h5, h6⟩ := hg
    simp only [Globals.letters] at h1 h2 h3 h4 h5 h6
    have hp := switchOption_ok hs
    clear hs h
    cases hp <;> subst_vars <;>
      simp only [Globals.note, Globals.letters, List.map_append, List.map_cons, List.map_nil,
        List.mem_append, List.mem_singleton] <;>
      generalize List.map Prod.fst g.processed = L at h1 h2 h3 h4 h5 h6 ⊢ <;>
      simp only [Char.reduceEq, or_false, or_true, true_or, implies_true, true_and, and_true,
        forall_const, true_implies, ne_eq, reduceCtorEq, not_false_eq_true, true_iff, iff_true] <;>
      simp_all
  · simp [Globals.letters, initialGlobals]

theorem validate_conflict (g : Globals) (urls : List String)
    (ht : g.streamRTPOverTCP = true) (hT : 0 < g.tunnelOverHTTPPortNum) :
    validate g urls = .exit 1 := by
  unfold validate usage
  split_ifs with h1 h2 h3 h4
  · rfl
  · rfl
  · rfl
  · rfl
  · exact absurd ⟨ht, hT⟩ h4

theorem validate_register (g : Globals) (urls : List String)
    (hU : g.authDBForREGISTER ≠ none) (hR : g.proxyREGISTERRequests = false) :
    validate g urls = .exit 1 := by
  unfold validate usage
  split_ifs with h1 h2 h3 h4
  · rfl
  · rfl
  · rfl
  · exact absurd ⟨hU, hR⟩ h3
  · exact absurd ⟨hU, hR⟩ h3

/-! ## `sscanf` on a token that starts with a numeral -/

theorem isdigit_not_space {c : Char} (h : isdigit c = true) : isspace c = false := by
  unfold isdigit at h
  simp only [Bool.and_eq_true, decide_eq_true_eq] at h
  obtain ⟨h1, h2⟩ := h
  have h1' : 48 ≤ c.toNat := h1
  have h2' : c.toNat ≤ 57 := h2
  unfold isspace
  simp only [Bool.or_eq_false_iff, beq_eq_false_iff_ne, ne_eq]
  refine ⟨⟨⟨⟨⟨?_, ?_⟩, ?_⟩, ?_⟩, ?_⟩, ?_⟩ <;>
    (intro hc; rw [hc] at h1' h2'; revert h1' h2'; decide)

theorem isdigit_not_sign {c : Char} (h : isdigit c = true) : c ≠ '-' ∧ c ≠ '+' := by
  unfold isdigit at h
  simp only [Bool.and_eq_true, decide_eq_true_eq] at h
  obtain ⟨h1, h2⟩ := h
  have h1' : 48 ≤ c.toNat := h1
  constructor <;> (intro hc; rw [hc] at h1'; revert h1'; decide)

theorem readDigits_append (tail : List Char)
    (ht : ∀ c, tail.head? = some c → isdigit c = false) :
    ∀ (digits : List Char) (acc : Nat), (∀ c ∈ digits, isdigit c = true) →
      readDigits (digits ++ tail) acc
        = digits.foldl (fun a c => 10 * a + (c.toNat - '0'.toNat)) acc := by
  intro digits
  induction digits with
  | nil =>
    intro acc _
    cases tail with
    | nil => rfl
    | cons c cs =>
      simp only [List.nil_append, readDigits, ht c rfl, List.foldl_nil]
      rfl
  | cons d ds ih =>
    intro acc hd
    simp only [List.cons_append, readDigits, hd d (List.mem_cons_self _ _), if_true,
      List.foldl_cons]
    exact ih _ (fun c hc => hd c (List.mem_cons_of_mem _ hc))

/-- On a token made of a non-empty run of digits followed by anything that does not
start with a digit, the `%hu` conversion succeeds and stores the value of the digits,
reduced to 16 bits. -/
theorem sscanf_hu_numeral (digits tail : List Char) (hne : digits ≠ [])
    (hd : ∀ c ∈ digits, isdigit c = true)
    (ht : ∀ c, tail.head? = some c → isdigit c = false)
    (hsmall : decimalValue digits < 2 ^ 64) :
    sscanf_hu (String.mk (digits ++ tail)) = some (decimalValue digits % 2 ^ 16) := by
  cases digits with
  | nil => exact absurd rfl hne
  | cons d ds =>
    have hdd := hd d (List.mem_cons_self _ _)
    have hsp := isdigit_not_space hdd
    obtain ⟨hm, hp⟩ := isdigit_not_sign hdd
    have hrd := readDigits_append tail ht (d :: ds) 0 hd
    unfold sscanf_hu sscanfUnsigned
    simp only [List.cons_append, skipSpace, hsp, Bool.false_eq_true, if_false, List.head?_cons,
      Option.some.injEq, hm, hp, or_self, hdd, if_true, beq_iff_eq]
    rw [show readDigits (d :: ds.append tail) 0 = decimalValue (d :: ds) from hrd,
      if_neg (Nat.not_le.mpr hsmall)]

/-- A token on which the `%hu` conversion succeeds consists of white space, an optional
sign, and then a digit. -/
theorem sscanf_hu_some {tok : String} {v : Nat} (h : sscanf_hu tok = some v) :
    v < 2 ^ 16 ∧
    ∃ ws sign c r, tok.data = ws ++ sign ++ c :: r ∧ (∀ x ∈ ws, isspace x = true) ∧
      (sign = [] ∨ sign = ['+'] ∨ sign = ['-']) ∧ isdigit c = true := by
  unfold sscanf_hu sscanfUnsigned at h
  have hws : ∀ l : List Char, ∃ ws, l = ws ++ skipSpace l ∧ ∀ x ∈ ws, isspace x = true := by
    intro l
    induction l with
    | nil => exact ⟨[], rfl, by simp⟩
    | cons a l ih =>
      by_cases ha : isspace a = true
      · obtain ⟨ws, h1, h2⟩ := ih
        refine ⟨a :: ws, ?_, ?_⟩
        · simp only [skipSpace, ha, if_true, List.cons_append]; rw [← h1]
        · intro x hx
          rcases List.mem_cons.mp hx with rfl | hx
          · exact ha
          · exact h2 x hx
      · exact ⟨[], by simp [skipSpace, ha], by simp⟩
  obtain ⟨ws, hws1, hws2⟩ := hws tok.data
  generalize skipSpace tok.data = s1 at h hws1
  simp only at h
  split at h
  · cases h
  · rename_i c r hs2
    by_cases hc : isdigit c = true
    swap
    · rw [if_neg hc] at h; cases h
    rw [if_pos hc] at h
    have hv := Option.some.inj h
    refine ⟨hv ▸ Nat.mod_lt _ (by norm_num), ?_⟩
    by_cases hsign : s1.head? = some '-' ∨ s1.head? = some '+'
    · rw [if_pos hsign] at hs2
      cases s1 with
      | nil => simp at hsign
      | cons a s =>
        simp only [List.tail_cons] at hs2
        simp only [List.head?_cons, Option.some.injEq] at hsign
        refine ⟨ws, [a], c, r, ?_, hws2, ?_, hc⟩
        · rw [hws1, hs2]; simp
        · rcases hsign with rfl | rfl <;> simp
    · rw [if_neg hsign] at hs2
      exact ⟨ws, [], c, r, by rw [hws1, hs2]; simp, hws2, Or.inl rfl, hc⟩

theorem charAt_zero_of_digit (digits tail : List Char) (hne : digits ≠ [])
    (hd : ∀ c ∈ digits, isdigit c = true) : charAt (String.mk (digits ++ tail)) 0 ≠ '-' := by
  cases digits with
  | nil => exact absurd rfl hne
  | cons d ds =>
    have := (isdigit_not_sign (hd d (List.mem_cons_self _ _))).1
    simpa [charAt] using this

theorem switchOption_e {opt : String} (h1 : charAt opt 1 = 'e') (g : Globals)
    (rest : List String) : switchOption g opt rest = caseE g rest := by
  unfold switchOption
  simp [h1]

theorem switchOption_p {opt : String} (h1 : charAt opt 1 = 'p') (g : Globals)
    (rest : List String) : switchOption g opt rest = caseP g rest := by
  unfold switchOption
  simp [h1]

theorem switchOption_T {opt : String} (h1 : charAt opt 1 = 'T') (g : Globals)
    (rest : List String) : switchOption g opt rest = caseTunnel g rest := by
  unfold switchOption
  simp [h1]

/-! # The claims -/

/-- C1 (the code evaluated). With the default port 554 busy and 8554 free,
the ladder tries 554 only: the second and third rungs sit inside the test
`rtspServerPortNum != 554`, so 8554 is never tried and `rtspServer` stays null. -/
theorem bind_default_port_busy_stops_after_554 :
    (bindServer only8554Free initialGlobals).2 = [554] ∧
    (bindServer only8554Free initialGlobals).1 = .ok (initialGlobals, none) ∧
    (main only8554Free ["rtsp://x/y"]).attempts = [554] ∧
    (main only8554Free ["rtsp://x/y"]).status = .undefined := by
  decide

/-- C2 (the code evaluated). With the default port 554 and no port free,
the program does not exit: it goes on to the provisioning loop with a null
`rtspServer`, where registering the first session is undefined; with `-R` and no URL
it reaches the event loop without any server. -/
theorem bind_failure_on_554_reaches_provisioning :
    main noPortFree ["rtsp://x/y"]
      = { status := .undefined, attempts := [554], sessions := [] } ∧
    main noPortFree ["-R"] = { status := .serving none 554, attempts := [554], sessions := [] } ∧
    (bindServer noPortFree initialGlobals).1 = .ok (initialGlobals, none) := by
  decide

/-- C3. For a preferred port `p ≠ 554` and any environment, the ports tried are the
first `n` of `[p, 554, 8554]` for some `1 ≤ n ≤ 3`, every attempt before the last one
failed, and either the last attempt succeeded, the server listens on that port and
`rtspServerPortNum` is that port, or all three failed and the program exits with
status 1. -/
theorem bindServer_ladder (oracle : BindOracle) (g : Globals) (hp : g.rtspServerPortNum ≠ 554) :
    ∃ n, 1 ≤ n ∧ n ≤ 3 ∧
      (bindServer oracle g).2 = [g.rtspServerPortNum, 554, 8554].take n ∧
      (bindServer oracle g).2.length ≤ 3 ∧
      (∀ q ∈ (bindServer oracle g).2, q = g.rtspServerPortNum ∨ q = 554 ∨ q = 8554) ∧
      (∀ k, k + 1 < n → oracle ([g.rtspServerPortNum, 554, 8554].take k)
          ([g.rtspServerPortNum, 554, 8554].getD k 0) = false) ∧
      ((oracle ([g.rtspServerPortNum, 554, 8554].take (n - 1))
            ([g.rtspServerPortNum, 554, 8554].getD (n - 1) 0) = true ∧
          ∃ g1 s, (bindServer oracle g).1 = .ok (g1, some s) ∧
            s.port = [g.rtspServerPortNum, 554, 8554].getD (n - 1) 0 ∧
            g1.rtspServerPortNum = s.port) ∨
        (n = 3 ∧ oracle [g.rtspServerPortNum, 554] 8554 = false ∧
          (bindServer oracle g).1 = .exit 1)) := by
  unfold bindServer createRTSPServer
  simp only [hp, ne_eq, not_false_eq_true, if_true, List.nil_append, List.cons_append]
  cases h0 : oracle [] g.rtspServerPortNum
  · cases h1 : oracle [g.rtspServerPortNum] 554
    · cases h2 : oracle [g.rtspServerPortNum, 554] 8554
      · refine ⟨3, by omega, by omega, by simp, by simp, by simp, ?_,
          Or.inr ⟨rfl, rfl, by simp⟩⟩
        intro k hk
        have : k = 0 ∨ k = 1 := by omega
        rcases this with rfl | rfl <;> simp [h0, h1]
      · refine ⟨3, by omega, by omega, by simp, by simp, by simp, ?_,
          Or.inl ⟨by simpa using h2, ?_⟩⟩
        · intro k hk
          have : k = 0 ∨ k = 1 := by omega
          rcases this with rfl | rfl <;> simp [h0, h1]
        · simp; exact ⟨_, _, ⟨rfl, rfl⟩, rfl, rfl⟩
    · refine ⟨2, by omega, by omega, by simp, by simp, by simp, ?_,
        Or.inl ⟨by simpa using h1, ?_⟩⟩
      · intro k hk
        have : k = 0 := by omega
        subst this; simp [h0]
      · simp; exact ⟨_, _, ⟨rfl, rfl⟩, rfl, rfl⟩
  · refine ⟨1, by omega, by omega, by simp, by simp, by simp, ?_,
      Or.inl ⟨by simpa using h0, ?_⟩⟩
    · intro k hk; omega
    · simp; exact ⟨_, _, ⟨rfl, rfl⟩, rfl, rfl⟩

/-- C3 at `p = 9000` with only 8554 free: 9000, 554 and 8554 are tried, in this order,
and the server listens on 8554. -/
theorem bindServer_ladder_witness :
    ({ initialGlobals with rtspServerPortNum := 9000 } : Globals).rtspServerPortNum ≠ 554 ∧
    (∃ n, 1 ≤ n ∧ n ≤ 3 ∧
      (bindServer only8554Free { initialGlobals with rtspServerPortNum := 9000 }).2
        = [9000, 554, 8554].take n) ∧
    bindServer only8554Free { initialGlobals with rtspServerPortNum := 9000 }
      = (.ok ({ initialGlobals with rtspServerPortNum := 8554 },
              some { port := 8554, withREGISTERProxying := false, authDB := none,
                     authDBForREGISTER := none }),
         [9000, 554, 8554]) :=
  ⟨by decide,
   (bindServer_ladder only8554Free { initialGlobals with rtspServerPortNum := 9000 }
      (by decide)).imp fun _ h => ⟨h.1, h.2.1, h.2.2.1⟩,
   by decide⟩

/-- C4 (the code evaluated). With `-e a%%` and two URLs the endpoint is
used as the `sprintf` format: the names registered are `a%-1` and `a%-2`, not
`a%%-1` and `a%%-2`; with one URL the same endpoint is copied verbatim, and a name
without `%` gets the suffixes `-1`, `-2`. -/
theorem percent_in_endpoint_is_a_format :
    (main everyPortFree ["-e", "a%%", "rtsp://x/1", "rtsp://x/2"]).sessions.map
        (fun sms => sms.streamName) = ["a%-1", "a%-2"] ∧
    (main everyPortFree ["-e", "a%%", "rtsp://x/1"]).sessions.map
        (fun sms => sms.streamName) = ["a%%"] ∧
    (main everyPortFree ["-e", "cam", "rtsp://x/1", "rtsp://x/2"]).sessions.map
        (fun sms => sms.streamName) = ["cam-1", "cam-2"] := by
  decide

/-- C5. With exactly one upstream URL in an accepted command line, the stream name
written by the provisioning loop is the effective base verbatim: the value of the
last `-e` processed, and `proxyStream` when no `-e` was processed; the one session
registered carries that name. -/
theorem single_stream_name_is_base (args : List String) (g : Globals) (url : String)
    (h : parseArgs args = .ok (g, [url])) :
    streamNameOf g.endpoint ([url].length + 1) 1
        = some ((customEndpoint g.processed).getD "proxyStream") ∧
    ('e' ∉ g.letters → streamNameOf g.endpoint ([url].length + 1) 1 = some "proxyStream") ∧
    ∀ s : RTSPServer,
      (provision g (some s) [url]).1 = .ok () ∧
      (provision g (some s) [url]).2.map (fun sms => (sms.proxiedStreamURL, sms.streamName))
        = [(url, (customEndpoint g.processed).getD "proxyStream")] := by
  obtain ⟨g0, hl, hv⟩ := parseArgs_ok h
  obtain ⟨he, hlen⟩ := optionLoop_endpoint hl
  obtain ⟨hv1, hv2, -⟩ := validate_ok hv
  rw [← hv1, ← hv2] at he
  rw [← hv1] at hlen
  have hname : streamNameOf g.endpoint ([url].length + 1) 1
      = some ((customEndpoint g.processed).getD "proxyStream") := by
    rw [← he]
    unfold streamNameOf formatStreamName
    simp only [List.length_singleton, if_true]
    cases hE : g.endpoint with
    | none => simp [BUFF_SIZE]
    | some e =>
      have := hlen e hE
      simp only [Option.getD_some]
      have h2 : e.data.length + 1 ≤ BUFF_SIZE + 3 := by
        have : e.data.length = e.length := rfl
        omega
      rw [if_pos h2]
  refine ⟨hname, ?_, ?_⟩
  · intro hno
    rw [hname]
    have : customEndpoint g.processed = none := by
      unfold Globals.letters at hno
      generalize g.processed = ps at hno
      induction ps using List.reverseRecOn with
      | nil => rfl
      | append_singleton ps p ih =>
        obtain ⟨c, vals⟩ := p
        rw [customEndpoint_append]
        simp only [List.map_append, List.map_cons, List.map_nil, List.mem_append,
          List.mem_singleton, not_or] at hno
        rw [if_neg (fun hc => hno.2 hc.symm)]
        exact ih hno.1
    rw [this]; rfl
  · intro s
    unfold provision provisionFrom
    rw [hname]
    simp [provisionFrom]

/-- C5 at `-e cam rtsp://x/y`: the one stream is named `cam`. -/
theorem single_stream_name_is_base_witness :
    parseArgs ["-e", "cam", "rtsp://x/y"]
      = .ok ({ initialGlobals with endpoint := some "cam", processed := [('e', ["cam"])] },
             ["rtsp://x/y"]) ∧
    streamNameOf (some "cam") 2 1 = some "cam" :=
  ⟨by decide,
   (single_stream_name_is_base ["-e", "cam", "rtsp://x/y"]
      { initialGlobals with endpoint := some "cam", processed := [('e', ["cam"])] }
      "rtsp://x/y" (by decide)).1⟩

/-- C6. When the option loop has processed both `-t` and `-T <port>`, in either order,
the checks after the loop call `usage()`: the program exits with status 1 before any
bind attempt; and no accepted configuration has both among its processed options. -/
theorem tcp_and_http_tunnel_conflict (args : List String) :
    (∀ g urls, optionLoop args.length initialGlobals args = .ok (g, urls) →
      't' ∈ g.letters → 'T' ∈ g.letters →
      validate g urls = .exit 1 ∧ parseArgs args = .exit 1 ∧
      ∀ oracle : BindOracle,
        main oracle args = { status := .exit 1, attempts := [], sessions := [] }) ∧
    (∀ g urls, parseArgs args = .ok (g, urls) → ¬ ('t' ∈ g.letters ∧ 'T' ∈ g.letters)) := by
  have key : ∀ g urls, optionLoop args.length initialGlobals args = .ok (g, urls) →
      't' ∈ g.letters → 'T' ∈ g.letters →
      validate g urls = .exit 1 ∧ parseArgs args = .exit 1 := by
    intro g urls hloop ht hT
    obtain ⟨h1, h2, -⟩ := optionLoop_flags hloop
    have hv := validate_conflict g urls (h1 ht) (h2 hT)
    exact ⟨hv, parseArgs_of_loop hloop hv⟩
  constructor
  · intro g urls hloop ht hT
    obtain ⟨hv, hp⟩ := key g urls hloop ht hT
    refine ⟨hv, hp, ?_⟩
    intro oracle
    unfold main
    rw [hp]
  · intro g urls h hboth
    obtain ⟨g0, hl, hv⟩ := parseArgs_ok h
    obtain ⟨-, v2, -⟩ := validate_ok hv
    have hl0 : g0.letters = g.letters := by unfold Globals.letters; rw [v2]
    have := (key g0 urls hl (hl0 ▸ hboth.1) (hl0 ▸ hboth.2)).2
    rw [h] at this
    cases this

/-- C6 at `-T 80 -t rtsp://x/y` and at `-t -T 80 rtsp://x/y`: both are rejected. -/
theorem tcp_and_http_tunnel_conflict_witness :
    parseArgs ["-T", "80", "-t", "rtsp://x/y"] = .exit 1 ∧
    parseArgs ["-t", "-T", "80", "rtsp://x/y"] = .exit 1 :=
  ⟨((tcp_and_http_tunnel_conflict ["-T", "80", "-t", "rtsp://x/y"]).1
      { initialGlobals with streamRTPOverTCP := true, tunnelOverHTTPPortNum := 80,
                            processed := [('T', ["80"]), ('t', [])] }
      ["rtsp://x/y"] (by decide) (by decide) (by decide)).2.1,
   ((tcp_and_http_tunnel_conflict ["-t", "-T", "80", "rtsp://x/y"]).1
      { initialGlobals with streamRTPOverTCP := true, tunnelOverHTTPPortNum := 80,
                            processed := [('t', []), ('T', ["80"])] }
      ["rtsp://x/y"] (by decide) (by decide) (by decide)).2.1⟩

/-- C7. When the option loop has processed a `-U <user> <pass>` and no `-R`, the checks
after the loop call `usage()` (exit status 1); and every accepted configuration that
has a registration credential has registration mode enabled. -/
theorem register_credential_requires_register_mode (args : List String) :
    (∀ g urls, optionLoop args.length initialGlobals args = .ok (g, urls) →
      'U' ∈ g.letters → 'R' ∉ g.letters →
      parseArgs args = .exit 1 ∧
      ∀ oracle : BindOracle,
        main oracle args = { status := .exit 1, attempts := [], sessions := [] }) ∧
    (∀ g urls, parseArgs args = .ok (g, urls) →
      (g.usernameForREGISTER ≠ none ∨ g.authDBForREGISTER ≠ none ∨ 'U' ∈ g.letters) →
      g.proxyREGISTERRequests = true ∧ 'R' ∈ g.letters) := by
  constructor
  · intro g urls hloop hU hR
    obtain ⟨-, -, h3, -, -, h6⟩ := optionLoop_flags hloop
    have hRf : g.proxyREGISTERRequests = false := by
      cases hb : g.proxyREGISTERRequests with
      | false => rfl
      | true => exact absurd (h6.mpr hb) hR
    have hp := parseArgs_of_loop hloop (validate_register g urls (h3 hU) hRf)
    refine ⟨hp, ?_⟩
    intro oracle
    unfold main
    rw [hp]
  · intro g urls h hcred
    obtain ⟨g0, hl, hv⟩ := parseArgs_ok h
    obtain ⟨-, -, h3, h4, -, h6⟩ := optionLoop_flags hl
    obtain ⟨-, v2, v3, v4, v5, v6⟩ := validate_ok hv
    have hdb : g0.authDBForREGISTER ≠ none := by
      rcases hcred with hc | hc | hc
      · exact h4 (v5 ▸ hc)
      · exact v4 ▸ hc
      · refine h3 ?_
        unfold Globals.letters at hc ⊢
        rw [← v2]; exact hc
    have hR := v6 hdb
    refine ⟨v3 ▸ hR, ?_⟩
    have := h6.mpr hR
    unfold Globals.letters at this ⊢
    rw [v2]; exact this

/-- C7 at `-U bob secret rtsp://x/y`: rejected, as `-R` is missing. -/
theorem register_credential_requires_register_mode_witness :
    parseArgs ["-U", "bob", "secret", "rtsp://x/y"] = .exit 1 :=
  ((register_credential_requires_register_mode ["-U", "bob", "secret", "rtsp://x/y"]).1
      { initialGlobals with usernameForREGISTER := some "bob",
                            passwordForREGISTER := some "secret",
                            authDBForREGISTER := some [("bob", "secret")],
                            processed := [('U', ["bob", "secret"])] }
      ["rtsp://x/y"] (by decide) (by decide) (by decide)).1

/-- C8 (the code evaluated). `-e` as the last token makes the program
read through the null pointer `argv[2]` instead of calling `usage()`; the other six
value-taking options call `usage()` when their values are missing. -/
theorem endpoint_option_without_value_is_undefined :
    (∀ g : Globals, caseE g [] = .undefined) ∧
    parseArgs ["-e"] = .undefined ∧
    parseArgs ["-v", "-e"] = .undefined ∧
    (∀ g : Globals, caseTunnel g [] = .exit 1 ∧ caseP g [] = .exit 1 ∧ caseD g [] = .exit 1) ∧
    (∀ (g : Globals) (a : String),
      caseC g [] = .exit 1 ∧ caseC g [a] = .exit 1 ∧ caseU g [] = .exit 1 ∧
      caseU g [a] = .exit 1 ∧ caseRegisterUser g [] = .exit 1 ∧
      caseRegisterUser g [a] = .exit 1) := by
  refine ⟨fun _ => rfl, by decide, by decide, fun _ => ⟨rfl, rfl, rfl⟩,
    fun _ _ => ⟨rfl, rfl, rfl, rfl, rfl, rfl⟩⟩

/-- C9 (counterexample). A port token with characters after the numeral is accepted:
`-p 80abc` stores port 80 and `-T 80abc` stores tunnel port 80. -/
theorem port_token_with_trailing_characters_accepted :
    parseArgs ["-p", "80abc", "rtsp://x/y"]
      = .ok ({ initialGlobals with rtspServerPortNum := 80, processed := [('p', ["80abc"])] },
             ["rtsp://x/y"]) ∧
    parseArgs ["-T", "80abc", "rtsp://x/y"]
      = .ok ({ initialGlobals with tunnelOverHTTPPortNum := 80,
                                   processed := [('T', ["80abc"])] },
             ["rtsp://x/y"]) := by
  decide

/-- C9 (amended). For `-p` and `-T`: a value token that starts with a decimal numeral of
value 1..65535 is accepted, whatever follows the numeral, and the stored port is that
value; a token that starts with a numeral of value zero is rejected; and a token is
accepted only if it does not start with `-` and consists of white space, an optional
sign and then a digit, the stored port then being in 1..65535. -/
theorem port_option_reads_leading_numeral (g : Globals) (optP optT : String)
    (rest : List String) (digits tail : List Char)
    (hP : charAt optP 1 = 'p') (hT : charAt optT 1 = 'T')
    (hne : digits ≠ []) (hd : ∀ c ∈ digits, isdigit c = true)
    (ht : ∀ c, tail.head? = some c → isdigit c = false) :
    (1 ≤ decimalValue digits → decimalValue digits ≤ 65535 →
      switchOption g optP (String.mk (digits ++ tail) :: rest)
        = .ok (({ g with rtspServerPortNum := decimalValue digits }).note 'p'
                 [String.mk (digits ++ tail)], rest) ∧
      switchOption g optT (String.mk (digits ++ tail) :: rest)
        = .ok (({ g with tunnelOverHTTPPortNum := decimalValue digits }).note 'T'
                 [String.mk (digits ++ tail)], rest)) ∧
    (decimalValue digits = 0 →
      switchOption g optP (String.mk (digits ++ tail) :: rest) = .exit 1 ∧
      switchOption g optT (String.mk (digits ++ tail) :: rest) = .exit 1) ∧
    (∀ (tok : String) (g1 : Globals) (argv1 : List String),
      (switchOption g optP (tok :: rest) = .ok (g1, argv1) →
        1 ≤ g1.rtspServerPortNum ∧ g1.rtspServerPortNum ≤ 65535) ∧
      (switchOption g optT (tok :: rest) = .ok (g1, argv1) →
        1 ≤ g1.tunnelOverHTTPPortNum ∧ g1.tunnelOverHTTPPortNum ≤ 65535) ∧
      (switchOption g optP (tok :: rest) = .ok (g1, argv1) ∨
          switchOption g optT (tok :: rest) = .ok (g1, argv1) →
        charAt tok 0 ≠ '-' ∧
        ∃ ws sign c r, tok.data = ws ++ sign ++ c :: r ∧ (∀ x ∈ ws, isspace x = true) ∧
          (sign = [] ∨ sign = ['+'] ∨ sign = ['-']) ∧ isdigit c = true)) := by
  have h0 := charAt_zero_of_digit digits tail hne hd
  simp only [switchOption_p hP, switchOption_T hT]
  refine ⟨?_, ?_, ?_⟩
  · intro h1 h2
    have hs := sscanf_hu_numeral digits tail hne hd ht (by omega)
    rw [Nat.mod_eq_of_lt (by omega)] at hs
    unfold caseP caseTunnel
    have hpos : decimalValue digits > 0 := by omega
    simp only [h0, ne_eq, not_false_eq_true, if_true, hs, hpos, and_self]
  · intro hz
    have hs := sscanf_hu_numeral digits tail hne hd ht (by omega)
    rw [hz] at hs
    unfold caseP caseTunnel usage
    simp only [h0, ne_eq, not_false_eq_true, if_true, hs]
    exact ⟨rfl, rfl⟩
  · intro tok g1 argv1
    refine ⟨?_, ?_, ?_⟩
    · intro h
      obtain ⟨port, v, hr, -, hsc, hv, hg⟩ := caseP_ok h
      have := (sscanf_hu_some hsc).1
      subst hg
      simp only [Globals.note]
      omega
    · intro h
      obtain ⟨port, v, hr, -, hsc, hv, hg⟩ := caseTunnel_ok h
      have := (sscanf_hu_some hsc).1
      subst hg
      simp only [Globals.note]
      omega
    · intro h
      rcases h with h | h
      · obtain ⟨port, v, hr, hc, hsc, -, -⟩ := caseP_ok h
        cases hr
        exact ⟨hc, (sscanf_hu_some hsc).2⟩
      · obtain ⟨port, v, hr, hc, hsc, -, -⟩ := caseTunnel_ok h
        cases hr
        exact ⟨hc, (sscanf_hu_some hsc).2⟩

/-- C9 (amended) at the tokens `80abc` (accepted as 80) and `0` (rejected). -/
theorem port_option_reads_leading_numeral_witness :
    switchOption initialGlobals "-p" ["80abc", "rtsp://x/y"]
      = .ok (({ initialGlobals with rtspServerPortNum := 80 }).note 'p' ["80abc"],
             ["rtsp://x/y"]) ∧
    switchOption initialGlobals "-T" ["0", "rtsp://x/y"] = .exit 1 :=
  ⟨((port_option_reads_leading_numeral initialGlobals "-p" "-T" ["rtsp://x/y"]
        ['8', '0'] ['a', 'b', 'c'] (by decide) (by decide) (by decide) (by decide)
        (by decide)).1 (by decide) (by decide)).1,
   ((port_option_reads_leading_numeral initialGlobals "-p" "-T" ["rtsp://x/y"] ['0'] []
        (by decide) (by decide) (by decide) (by decide) (by decide)).2.1 (by decide)).2⟩

/-- C10. When the run comes to a `-e <name>` option: a name longer than 50 characters
makes the program call `usage()` (exit status 1, nothing bound, no session); a name of
at most 50 characters passes and becomes `endpoint`, the base stream name. -/
theorem endpoint_length_rule (args : List String) (g : Globals) (opt name : String)
    (rest : List String) (hr : Reaches args g (opt :: name :: rest))
    (h0 : charAt opt 0 = '-') (h1 : charAt opt 1 = 'e') :
    (BUFF_SIZE < name.length →
      parseArgs args = .exit 1 ∧
      ∀ oracle : BindOracle,
        main oracle args = { status := .exit 1, attempts := [], sessions := [] }) ∧
    (name.length ≤ BUFF_SIZE →
      switchOption g opt (name :: rest)
        = .ok (({ g with endpoint := some name }).note 'e' [name], rest) ∧
      (({ g with endpoint := some name }).note 'e' [name]).endpoint = some name ∧
      Reaches args (({ g with endpoint := some name }).note 'e' [name]) rest) := by
  constructor
  · intro hlong
    have hsw : switchOption g opt (name :: rest) = .exit 1 := by
      rw [switchOption_e h1]
      unfold caseE usage
      simp only
      rw [if_pos hlong]
    have hloop : optionLoop args.length initialGlobals args = .exit 1 := by
      rw [reaches_optionLoop hr, List.length_cons, optionLoop_cons, if_neg (by simp [h0]), hsw]
    have hp : parseArgs args = .exit 1 := by
      unfold parseArgs usage
      split_ifs
      · rfl
      · rw [hloop]
    refine ⟨hp, ?_⟩
    intro oracle
    unfold main
    rw [hp]
  · intro hshort
    have hsw : switchOption g opt (name :: rest)
        = .ok (({ g with endpoint := some name }).note 'e' [name], rest) := by
      rw [switchOption_e h1]
      unfold caseE
      simp only
      rw [if_neg (Nat.not_lt.mpr hshort)]
    exact ⟨hsw, rfl, Reaches.pass hr h0 hsw⟩

/-- C10 at a name of 51 characters (rejected) and one of exactly 50 (accepted). -/
theorem endpoint_length_rule_witness :
    parseArgs ["-e", String.mk (List.replicate 51 'a'), "rtsp://x/y"] = .exit 1 ∧
    switchOption initialGlobals "-e" [String.mk (List.replicate 50 'a'), "rtsp://x/y"]
      = .ok (({ initialGlobals with
                  endpoint := some (String.mk (List.replicate 50 'a')) }).note 'e'
               [String.mk (List.replicate 50 'a')], ["rtsp://x/y"]) :=
  ⟨((endpoint_length_rule ["-e", String.mk (List.replicate 51 'a'), "rtsp://x/y"]
        initialGlobals "-e" (String.mk (List.replicate 51 'a')) ["rtsp://x/y"]
        Reaches.start (by decide) (by decide)).1 (by decide)).1,
   ((endpoint_length_rule ["-e", String.mk (List.replicate 50 'a'), "rtsp://x/y"]
        initialGlobals "-e" (String.mk (List.replicate 50 'a')) ["rtsp://x/y"]
        Reaches.start (by decide) (by decide)).2 (by decide)).1⟩

/-! ## The authentication databases -/

theorem credentialsOf_append (c c1 : Char) (ps : List (Char × List String))
    (vals : List String) :
    credentialsOf c (ps ++ [(c1, vals)])
      = credentialsOf c ps ++ credentialsOf c [(c1, vals)] := by
  simp [credentialsOf, List.filterMap_append]

theorem credentialsOf_other {c c1 : Char} (h : c1 ≠ c) (vals : List String) :
    credentialsOf c [(c1, vals)] = [] := by
  simp [credentialsOf, h]

theorem credentialsOf_same (c : Char) (user pass : String) :
    credentialsOf c [(c, [user, pass])] = [(user, pass)] := by
  simp [credentialsOf]

/-- Adding records one by one keeps the database free of duplicates and holding
exactly the pairs added. -/
theorem addUserRecord_spec (db : UserAuthenticationDatabase) (user pass : String)
    (hdb : db.Nodup) :
    (addUserRecord db user pass).Nodup ∧
    ∀ p, p ∈ addUserRecord db user pass ↔ p ∈ db ∨ p = (user, pass) := by
  unfold addUserRecord
  split_ifs with h
  · refine ⟨hdb, fun p => ⟨Or.inl, ?_⟩⟩
    rintro (hp | rfl)
    · exact hp
    · exact h
  · refine ⟨?_, fun p => by simp⟩
    rw [List.nodup_append]
    refine ⟨hdb, List.nodup_singleton _, ?_⟩
    intro a ha hb
    rw [List.mem_singleton] at hb
    exact h (hb ▸ ha)

/-- Leaving the loop: `authDB` is still null, the `Credential` struct holds the last
`-C` pair, and `authDBForREGISTER` holds exactly the pairs of the `-U` options. -/
theorem optionLoop_credentials {args urls : List String} {g : Globals}
    (h : optionLoop args.length initialGlobals args = .ok (g, urls)) :
    g.authDB = none ∧
    ('C' ∈ g.letters ↔ g.proxyAuth = true) ∧
    (credentialsOf 'C' g.processed).getLast?
      = (if g.proxyAuth then
          some (g.credentialUsername.getD "", g.credentialPassword.getD "")
         else none) ∧
    (g.authDBForREGISTER = none → credentialsOf 'U' g.processed = []) ∧
    (∀ db, g.authDBForREGISTER = some db →
      db.Nodup ∧ credentialsOf 'U' g.processed ≠ [] ∧
      (∀ p, p ∈ db ↔ p ∈ credentialsOf 'U' g.processed) ∧
      (∀ p, credentialsOf 'U' g.processed = [p] → db = [p])) := by
  refine optionLoop_invariant
    (fun g => g.authDB = none ∧
      ('C' ∈ g.letters ↔ g.proxyAuth = true) ∧
      (credentialsOf 'C' g.processed).getLast?
        = (if g.proxyAuth then
            some (g.credentialUsername.getD "", g.credentialPassword.getD "")
           else none) ∧
      (g.authDBForREGISTER = none → credentialsOf 'U' g.processed = []) ∧
      (∀ db, g.authDBForREGISTER = some db →
        db.Nodup ∧ credentialsOf 'U' g.processed ≠ [] ∧
        (∀ p, p ∈ db ↔ p ∈ credentialsOf 'U' g.processed) ∧
        (∀ p, credentialsOf 'U' g.processed = [p] → db = [p]))) ?_ _ _ _ _ _ ?_ h
  · intro g opt rest g1 argv1 hg hs
    obtain ⟨h1, h2, h3, h4, h5⟩ := hg
    have hp := switchOption_ok hs
    clear hs h
    simp only [Globals.letters] at h2
    cases hp
    case U user pass hc hr hg1 =>
      subst hg1
      simp only [Globals.note, Globals.letters, List.map_append, List.map_cons, List.map_nil,
        List.mem_append, List.mem_singleton, Char.reduceEq, or_false, credentialsOf_append,
        credentialsOf_same, credentialsOf_other (show ('U' : Char) ≠ 'C' by decide),
        List.append_nil]
      refine ⟨h1, h2, h3, by simp, ?_⟩
      intro db hdb
      simp only [Option.some.injEq] at hdb
      subst hdb
      cases hold : g.authDBForREGISTER with
      | none =>
        have hnil := h4 hold
        simp [hnil, addUserRecord]
      | some db0 =>
        obtain ⟨n1, n2, n3, n4⟩ := h5 db0 hold
        obtain ⟨m1, m2⟩ := addUserRecord_spec db0 user pass n1
        simp only [Option.getD_some]
        refine ⟨m1, by simp, ?_, ?_⟩
        · intro p
          rw [m2 p, n3 p]
        · intro p hp
          exfalso
          have := congrArg List.length hp
          simp only [List.length_append, List.length_singleton] at this
          have : (credentialsOf 'U' g.processed).length = 0 := by omega
          exact n2 (List.length_eq_zero.mp this)
    case C user pass hc hr hg1 =>
      subst hg1
      simp only [Globals.note, Globals.letters, List.map_append, List.map_cons, List.map_nil,
        List.mem_append, List.mem_singleton, or_true, credentialsOf_append,
        credentialsOf_same, credentialsOf_other (show ('C' : Char) ≠ 'U' by decide),
        List.append_nil, if_true, Option.getD_some, true_iff]
      exact ⟨h1, trivial, List.getLast?_concat _, h4, h5⟩

    all_goals
      subst_vars
      simp only [Globals.note, Globals.letters, List.map_append, List.map_cons, List.map_nil,
        List.mem_append, List.mem_singleton, Char.reduceEq, or_false, credentialsOf_append,
        credentialsOf_other (show ('v' : Char) ≠ 'C' by decide),
        credentialsOf_other (show ('v' : Char) ≠ 'U' by decide),
        credentialsOf_other (show ('V' : Char) ≠ 'C' by decide),
        credentialsOf_other (show ('V' : Char) ≠ 'U' by decide),
        credentialsOf_other (show ('t' : Char) ≠ 'C' by decide),
        credentialsOf_other (show ('t' : Char) ≠ 'U' by decide),
        credentialsOf_other (show ('e' : Char) ≠ 'C' by decide),
        credentialsOf_other (show ('e' : Char) ≠ 'U' by decide),
        credentialsOf_other (show ('T' : Char) ≠ 'C' by decide),
        credentialsOf_other (show ('T' : Char) ≠ 'U' by decide),
        credentialsOf_other (show ('p' : Char) ≠ 'C' by decide),
        credentialsOf_other (show ('p' : Char) ≠ 'U' by decide),
        credentialsOf_other (show ('u' : Char) ≠ 'C' by decide),
        credentialsOf_other (show ('u' : Char) ≠ 'U' by decide),
        credentialsOf_other (show ('R' : Char) ≠ 'C' by decide),
        credentialsOf_other (show ('R' : Char) ≠ 'U' by decide),
        credentialsOf_other (show ('D' : Char) ≠ 'C' by decide),
        credentialsOf_other (show ('D' : Char) ≠ 'U' by decide),
        List.append_nil]
      exact ⟨h1, h2, h3, h4, h5⟩
  · simp [initialGlobals, Globals.letters, credentialsOf]

/-- An accepted validation, spelled out: the four checks passed and the globals are
the loop's globals after the two fix-ups. -/
theorem validate_ok_eq {g g1 : Globals} {urls : List String} (h : validate g urls = .ok g1) :
    g1 = buildAuthDB (markTCP g) ∧
    (urls ≠ [] ∨ g.proxyREGISTERRequests = true) ∧
    urls.all isRtspURL = true ∧
    (g.authDBForREGISTER ≠ none → g.proxyREGISTERRequests = true) ∧
    ¬ (g.streamRTPOverTCP = true ∧ g.tunnelOverHTTPPortNum > 0) := by
  unfold validate at h
  split_ifs at h with h1 h2 h3 h4
  all_goals cases h
  refine ⟨rfl, ?_, by simpa using h2, ?_, h4⟩
  · by_contra hc
    rw [not_or] at hc
    refine h1 ⟨?_, by simpa using hc.2⟩
    have : urls = [] := by simpa using hc.1
    simp [this]
  · intro hne
    by_contra hR
    exact h3 ⟨hne, by simpa using hR⟩

theorem buildAuthDB_markTCP_fields (g : Globals) :
    (buildAuthDB (markTCP g)).processed = g.processed ∧
    (buildAuthDB (markTCP g)).authDBForREGISTER = g.authDBForREGISTER ∧
    (buildAuthDB (markTCP g)).proxyAuth = g.proxyAuth ∧
    (buildAuthDB (markTCP g)).credentialUsername = g.credentialUsername ∧
    (buildAuthDB (markTCP g)).credentialPassword = g.credentialPassword ∧
    (buildAuthDB (markTCP g)).proxyREGISTERRequests = g.proxyREGISTERRequests ∧
    (buildAuthDB (markTCP g)).streamRTPOverTCP = g.streamRTPOverTCP ∧
    (buildAuthDB (markTCP g)).tunnelOverHTTPPortNum
      = (if g.streamRTPOverTCP then 2 ^ 16 - 1 else g.tunnelOverHTTPPortNum) ∧
    (buildAuthDB (markTCP g)).authDB
      = (if g.proxyAuth then
          some (addUserRecord [] (g.credentialUsername.getD "") (g.credentialPassword.getD ""))
         else g.authDB) := by
  unfold buildAuthDB markTCP
  refine ⟨?_, ?_, ?_, ?_, ?_, ?_, ?_, ?_, ?_⟩ <;> split_ifs <;> rfl

/-- C11 (counterexample). Two `-U` options leave two pairs in the registration
database, not one. -/
theorem repeated_register_user_adds_records :
    parseArgs ["-R", "-U", "a", "x", "-U", "b", "y"]
      = .ok ({ initialGlobals with
                 proxyREGISTERRequests := true, usernameForREGISTER := some "b",
                 passwordForREGISTER := some "y",
                 authDBForREGISTER := some [("a", "x"), ("b", "y")],
                 processed := [('R', []), ('U', ["a", "x"]), ('U', ["b", "y"])] }, []) := by
  decide

/-- C11 (amended). In an accepted configuration the client database is null when no
`-C` was processed and otherwise holds exactly one pair, that of the last `-C`; the
registration database is null when no `-U` was processed and otherwise holds pairs
given with processed `-U` options only, among them the pair of the last `-U`, and
exactly one pair when only one `-U` pair was given. -/
theorem authentication_domains (args : List String) (g : Globals) (urls : List String)
    (h : parseArgs args = .ok (g, urls)) :
    (g.authDB = none ↔ 'C' ∉ g.letters) ∧
    g.authDB = (credentialsOf 'C' g.processed).getLast?.map (fun p => [p]) ∧
    (g.authDBForREGISTER = none ↔ 'U' ∉ g.letters) ∧
    (∀ db, g.authDBForREGISTER = some db →
      db.Nodup ∧ (∀ p ∈ db, p ∈ credentialsOf 'U' g.processed) ∧
      (∀ p, (credentialsOf 'U' g.processed).getLast? = some p → p ∈ db) ∧
      (∀ p, credentialsOf 'U' g.processed = [p] → db = [p])) := by
  obtain ⟨g0, hl, hv⟩ := parseArgs_ok h
  obtain ⟨c1, c2, c3, c4, c5⟩ := optionLoop_credentials hl
  obtain ⟨-, -, f3, -, f5, -⟩ := optionLoop_flags hl
  obtain ⟨hg, -⟩ := validate_ok_eq hv
  obtain ⟨b1, b2, b3, b4, b5, -, -, -, b9⟩ := buildAuthDB_markTCP_fields g0
  have hletters : g.letters = g0.letters := by
    unfold Globals.letters; rw [hg, b1]
  have hauth : g.authDB = (credentialsOf 'C' g.processed).getLast?.map (fun p => [p]) := by
    rw [hg, b9, b1, c3]
    cases hpa : g0.proxyAuth with
    | false => simpa using c1
    | true => simp [addUserRecord]
  refine ⟨?_, hauth, ?_, ?_⟩
  · rw [hletters, hg, b9]
    cases hpa : g0.proxyAuth with
    | false =>
      simp only [Bool.false_eq_true, if_false, c1, true_iff]
      intro hC; rw [c2.mp hC] at hpa; cases hpa
    | true =>
      simp only [if_true, reduceCtorEq, false_iff, not_not]
      exact c2.mpr hpa
  · rw [hletters, hg, b2]
    constructor
    · intro hn hU; exact f3 hU hn
    · intro hU; by_contra hn; exact hU (f5 hn)
  · intro db hdb
    rw [hg, b2] at hdb
    rw [hg, b1]
    obtain ⟨n1, -, n3, n4⟩ := c5 db hdb
    exact ⟨n1, fun p hp => (n3 p).mp hp,
      fun p hp => (n3 p).mpr (List.mem_of_mem_getLast? hp), n4⟩

/-- C11 (amended) at `-C al pw -R -U bob secret`: one pair in each database. -/
theorem authentication_domains_witness :
    parseArgs ["-C", "al", "pw", "-R", "-U", "bob", "secret"]
      = .ok ({ initialGlobals with
                 authDB := some [("al", "pw")], proxyAuth := true,
                 credentialUsername := some "al", credentialPassword := some "pw",
                 proxyREGISTERRequests := true, usernameForREGISTER := some "bob",
                 passwordForREGISTER := some "secret",
                 authDBForREGISTER := some [("bob", "secret")],
                 processed := [('C', ["al", "pw"]), ('R', []), ('U', ["bob", "secret"])] },
             []) ∧
    (some [("al", "pw")] : Option UserAuthenticationDatabase)
      = (credentialsOf 'C' [('C', ["al", "pw"]), ('R', []), ('U', ["bob", "secret"])]).getLast?.map
          (fun p => [p]) :=
  ⟨by decide,
   (authentication_domains ["-C", "al", "pw", "-R", "-U", "bob", "secret"]
      { initialGlobals with
          authDB := some [("al", "pw")], proxyAuth := true,
          credentialUsername := some "al", credentialPassword := some "pw",
          proxyREGISTERRequests := true, usernameForREGISTER := some "bob",
          passwordForREGISTER := some "secret",
          authDBForREGISTER := some [("bob", "secret")],
          processed := [('C', ["al", "pw"]), ('R', []), ('U', ["bob", "secret"])] }
      [] (by decide)).2.1⟩

/-! ## The transport value -/

theorem lastTunnelPort_append (ps : List (Char × List String)) (c : Char)
    (vals : List String) :
    lastTunnelPort (ps ++ [(c, vals)])
      = if c = 'T' then vals.head?.bind sscanf_hu else lastTunnelPort ps := by
  simp [lastTunnelPort, List.foldl_append]

/-- Leaving the loop: `streamRTPOverTCP` is set exactly when a `-t` was processed, and
`tunnelOverHTTPPortNum` is the port of the last `-T`, a value in 1..65535, or still 0. -/
theorem optionLoop_transport {args urls : List String} {g : Globals}
    (h : optionLoop args.length initialGlobals args = .ok (g, urls)) :
    ('t' ∈ g.letters ↔ g.streamRTPOverTCP = true) ∧
    g.tunnelOverHTTPPortNum = (lastTunnelPort g.processed).getD 0 ∧
    (∀ port, lastTunnelPort g.processed = some port → 0 < port ∧ port < 2 ^ 16) := by
  refine optionLoop_invariant
    (fun g => ('t' ∈ g.letters ↔ g.streamRTPOverTCP = true) ∧
      g.tunnelOverHTTPPortNum = (lastTunnelPort g.processed).getD 0 ∧
      (∀ port, lastTunnelPort g.processed = some port → 0 < port ∧ port < 2 ^ 16))
    ?_ _ _ _ _ _ ?_ h
  · intro g opt rest g1 argv1 hg hs
    obtain ⟨h1, h2, h3⟩ := hg
    have hp := switchOption_ok hs
    clear hs h
    simp only [Globals.letters] at h1
    cases hp
    case T port v hc hr h0 hsc hv hg1 =>
      subst hg1
      simp only [Globals.note, Globals.letters, List.map_append, List.map_cons, List.map_nil,
        List.mem_append, List.mem_singleton, Char.reduceEq, or_false, lastTunnelPort_append,
        if_true, List.head?_cons, Option.some_bind, hsc, Option.getD_some, Option.some.injEq,
        true_and]
      refine ⟨h1, ?_⟩
      intro p hp
      subst hp
      exact ⟨hv, (sscanf_hu_some hsc).1⟩
    case t hc hr hg1 =>
      subst hg1
      simp only [Globals.note, Globals.letters, List.map_append, List.map_cons, List.map_nil,
        List.mem_append, List.mem_singleton, or_true, lastTunnelPort_append, Char.reduceEq,
        if_false, true_iff, true_and]
      exact ⟨h2, h3⟩
    all_goals
      subst_vars
      simp only [Globals.note, Globals.letters, List.map_append, List.map_cons, List.map_nil,
        List.mem_append, List.mem_singleton, Char.reduceEq, or_false, lastTunnelPort_append,
        if_false]
      exact ⟨h1, h2, h3⟩
  · simp [initialGlobals, Globals.letters, lastTunnelPort]

/-- Every session the provisioning loop registers carries the credential, transport
value, verbosity and gap time of the globals. -/
theorem provisionFrom_fields (g : Globals) (rtspServer : Option RTSPServer) (argc : Nat) :
    ∀ (urls : List String) (i : Nat), ∀ sms ∈ (provisionFrom g rtspServer argc i urls).2,
      sms.username = g.username ∧ sms.password = g.password ∧
      sms.tunnelOverHTTPPortNum = g.tunnelOverHTTPPortNum ∧
      sms.verbosityLevel = g.verbosityLevel ∧
      sms.interPacketGapMaxTime = g.interPacketGapMaxTime := by
  intro urls
  induction urls with
  | nil => intro i sms hs; simp [provisionFrom] at hs
  | cons url urls ih =>
    intro i sms hs
    unfold provisionFrom at hs
    cases hn : streamNameOf g.endpoint argc i with
    | none => simp [hn] at hs
    | some name =>
      cases rtspServer with
      | none => simp [hn] at hs
      | some s =>
        simp only [hn, List.mem_cons] at hs
        rcases hs with rfl | hs
        · exact ⟨rfl, rfl, rfl, rfl, rfl⟩
        · exact ih (i + 1) sms hs

/-- C12 (counterexample). `-t` and `-T 65535` are different transport modes and both
hand the value 65535 to session creation. -/
theorem tcp_and_tunnel_65535_share_a_value :
    parseArgs ["-t", "rtsp://x/y"]
      = .ok ({ initialGlobals with streamRTPOverTCP := true, tunnelOverHTTPPortNum := 65535,
                                   processed := [('t', [])] }, ["rtsp://x/y"]) ∧
    parseArgs ["-T", "65535", "rtsp://x/y"]
      = .ok ({ initialGlobals with tunnelOverHTTPPortNum := 65535,
                                   processed := [('T', ["65535"])] }, ["rtsp://x/y"]) ∧
    transportMode [('t', [])] = .tcpInterleaved ∧
    transportMode [('T', ["65535"])] = .httpTunnel 65535 := by
  decide

/-- C12 (amended). In an accepted configuration the tunnel-port value, which every
session receives, is 0 for NativeUDP, 65535 for TCPInterleaved and `P` for
HTTPTunnel(`P`), with `P` in 1..65535; two accepted configurations with different
modes and the same value are TCPInterleaved and HTTPTunnel(65535). -/
theorem transport_value_encodes_mode (args : List String) (g : Globals) (urls : List String)
    (h : parseArgs args = .ok (g, urls)) :
    g.tunnelOverHTTPPortNum = (transportMode g.processed).encode ∧
    (∀ port, transportMode g.processed = .httpTunnel port → 1 ≤ port ∧ port ≤ 65535) ∧
    (∀ (rtspServer : Option RTSPServer), ∀ sms ∈ (provision g rtspServer urls).2,
      sms.tunnelOverHTTPPortNum = (transportMode g.processed).encode) ∧
    (∀ (args1 : List String) (g1 : Globals) (urls1 : List String),
      parseArgs args1 = .ok (g1, urls1) →
      transportMode g.processed ≠ transportMode g1.processed →
      g.tunnelOverHTTPPortNum = g1.tunnelOverHTTPPortNum →
      (transportMode g.processed = .tcpInterleaved ∧
          transportMode g1.processed = .httpTunnel 65535) ∨
      (transportMode g.processed = .httpTunnel 65535 ∧
          transportMode g1.processed = .tcpInterleaved)) := by
  have key : ∀ (a : List String) (x : Globals) (u : List String), parseArgs a = .ok (x, u) →
      x.tunnelOverHTTPPortNum = (transportMode x.processed).encode ∧
      (∀ port, transportMode x.processed = .httpTunnel port → 1 ≤ port ∧ port ≤ 65535) := by
    intro a x u hx
    obtain ⟨g0, hl, hv⟩ := parseArgs_ok hx
    obtain ⟨t1, t2, t3⟩ := optionLoop_transport hl
    obtain ⟨hg, -, -, -, hconf⟩ := validate_ok_eq hv
    obtain ⟨b1, -, -, -, -, -, -, b8, -⟩ := buildAuthDB_markTCP_fields g0
    rw [hg, b1, b8]
    unfold transportMode
    simp only [Globals.letters] at t1
    cases hst : g0.streamRTPOverTCP with
    | true =>
      have ht := t1.mpr hst
      simp only [ht, if_true, TransportMode.encode, reduceCtorEq, false_implies, implies_true,
        and_self]
    | false =>
      have ht : 't' ∉ List.map Prod.fst g0.processed := by
        intro hc; rw [t1.mp hc] at hst; cases hst
      simp only [ht, if_false, Bool.false_eq_true]
      cases hlast : lastTunnelPort g0.processed with
      | none => simp [TransportMode.encode, t2, hlast]
      | some p =>
        have := t3 p hlast
        simp only [TransportMode.encode, t2, hlast, Option.getD_some,
          TransportMode.httpTunnel.injEq, true_and]
        intro port hp
        subst hp
        omega
  obtain ⟨k1, k2⟩ := key args g urls h
  refine ⟨k1, k2, ?_, ?_⟩
  · intro rtspServer sms hs
    rw [← k1]
    exact (provisionFrom_fields g rtspServer _ urls 1 sms hs).2.2.1
  · intro args1 g1 urls1 h1 hne heq
    obtain ⟨j1, j2⟩ := key args1 g1 urls1 h1
    rw [k1, j1] at heq
    generalize transportMode g.processed = m at hne heq k2
    generalize transportMode g1.processed = m1 at hne heq j2
    cases m <;> cases m1 <;> simp only [TransportMode.encode] at heq
    · exact absurd rfl hne
    · norm_num at heq
    · have := j2 _ rfl; omega
    · norm_num at heq
    · exact absurd rfl hne
    · left
      refine ⟨rfl, ?_⟩
      rw [← heq]
      norm_num
    · have := k2 _ rfl; omega
    · right
      refine ⟨?_, rfl⟩
      rw [heq]
      norm_num
    · subst heq
      exact absurd rfl hne


/-- C12 (amended) at `-T 8080 rtsp://x/y`: the value handed on is 8080. -/
theorem transport_value_encodes_mode_witness :
    parseArgs ["-T", "8080", "rtsp://x/y"]
      = .ok ({ initialGlobals with tunnelOverHTTPPortNum := 8080,
                                   processed := [('T', ["8080"])] }, ["rtsp://x/y"]) ∧
    (8080 : Nat) = (transportMode [('T', ["8080"])]).encode :=
  ⟨by decide,
   (transport_value_encodes_mode ["-T", "8080", "rtsp://x/y"]
      { initialGlobals with tunnelOverHTTPPortNum := 8080, processed := [('T', ["8080"])] }
      ["rtsp://x/y"] (by decide)).1⟩

/-! ## Exits, leftover tokens and the URL checks -/

theorem caseC_exit {g : Globals} {rest : List String} {n : Nat}
    (h : caseC g rest = .exit n) : n = 1 := by
  unfold caseC usage at h
  split at h <;> cases h
  rfl

theorem caseE_exit {g : Globals} {rest : List String} {n : Nat}
    (h : caseE g rest = .exit n) : n = 1 := by
  unfold caseE usage at h
  split at h
  · cases h
  · split_ifs at h
    cases h
    rfl

theorem caseTunnel_exit {g : Globals} {rest : List String} {n : Nat}
    (h : caseTunnel g rest = .exit n) : n = 1 := by
  unfold caseTunnel usage at h
  split at h
  · cases h; rfl
  · split_ifs at h
    · split at h
      · split_ifs at h
        cases h
        rfl
      · cases h; rfl
    · cases h; rfl

theorem caseP_exit {g : Globals} {rest : List String} {n : Nat}
    (h : caseP g rest = .exit n) : n = 1 := by
  unfold caseP usage at h
  split at h
  · cases h; rfl
  · split_ifs at h
    · split at h
      · split_ifs at h
        cases h
        rfl
      · cases h; rfl
    · cases h; rfl

theorem caseU_exit {g : Globals} {rest : List String} {n : Nat}
    (h : caseU g rest = .exit n) : n = 1 := by
  unfold caseU usage at h
  split at h <;> cases h
  rfl

theorem caseRegisterUser_exit {g : Globals} {rest : List String} {n : Nat}
    (h : caseRegisterUser g rest = .exit n) : n = 1 := by
  unfold caseRegisterUser usage at h
  split at h <;> cases h
  rfl

theorem caseD_exit {g : Globals} {rest : List String} {n : Nat}
    (h : caseD g rest = .exit n) : n = 1 := by
  unfold caseD usage at h
  split at h
  · cases h; rfl
  · split_ifs at h
    · split at h <;> cases h
      rfl
    · cases h; rfl

/-- Every exit taken inside the switch is the `exit(1)` of `usage()`. -/
theorem switchOption_exit {g : Globals} {opt : String} {rest : List String} {n : Nat}
    (h : switchOption g opt rest = .exit n) : n = 1 := by
  unfold switchOption at h
  generalize charAt opt 1 = c at h
  by_cases hv : c = 'v'
  · rw [if_pos hv] at h; cases h
  rw [if_neg hv] at h
  by_cases hV : c = 'V'
  · rw [if_pos hV] at h; cases h
  rw [if_neg hV] at h
  by_cases ht : c = 't'
  · rw [if_pos ht] at h; cases h
  rw [if_neg ht] at h
  by_cases hC : c = 'C'
  · rw [if_pos hC] at h; exact caseC_exit h
  rw [if_neg hC] at h
  by_cases he : c = 'e'
  · rw [if_pos he] at h; exact caseE_exit h
  rw [if_neg he] at h
  by_cases hT : c = 'T'
  · rw [if_pos hT] at h; exact caseTunnel_exit h
  rw [if_neg hT] at h
  by_cases hp : c = 'p'
  · rw [if_pos hp] at h; exact caseP_exit h
  rw [if_neg hp] at h
  by_cases hu : c = 'u'
  · rw [if_pos hu] at h; exact caseU_exit h
  rw [if_neg hu] at h
  by_cases hU : c = 'U'
  · rw [if_pos hU] at h; exact caseRegisterUser_exit h
  rw [if_neg hU] at h
  by_cases hR : c = 'R'
  · rw [if_pos hR] at h; cases h
  rw [if_neg hR] at h
  by_cases hD : c = 'D'
  · rw [if_pos hD] at h; exact caseD_exit h
  rw [if_neg hD] at h
  cases h
  rfl

theorem optionLoop_exit :
    ∀ (fuel : Nat) (g : Globals) (argv : List String) (n : Nat),
      optionLoop fuel g argv = .exit n → n = 1 := by
  intro fuel
  induction fuel with
  | zero => intro g argv n h; cases argv <;> cases h
  | succ fuel ih =>
    intro g argv n h
    cases argv with
    | nil => cases h
    | cons opt rest =>
      rw [optionLoop_cons] at h
      by_cases h0 : charAt opt 0 ≠ '-'
      · rw [if_pos h0] at h; cases h
      · rw [if_neg h0] at h
        cases hs : switchOption g opt rest with
        | exit m =>
          simp only [hs] at h
          cases h
          exact switchOption_exit hs
        | undefined => simp only [hs] at h; cases h
        | ok a =>
          obtain ⟨g2, argv2⟩ := a
          simp only [hs] at h
          exact ih g2 argv2 n h

theorem validate_exit {g : Globals} {urls : List String} {n : Nat}
    (h : validate g urls = .exit n) : n = 1 := by
  unfold validate usage at h
  split_ifs at h <;> cases h <;> rfl

theorem parseArgs_exit {args : List String} {n : Nat} (h : parseArgs args = .exit n) :
    n = 1 := by
  unfold parseArgs usage at h
  split_ifs at h
  · cases h; rfl
  · cases hl : optionLoop args.length initialGlobals args with
    | exit m => simp only [hl] at h; cases h; exact optionLoop_exit _ _ _ _ hl
    | undefined => simp only [hl] at h; cases h
    | ok a =>
      obtain ⟨g, urls⟩ := a
      simp only [hl] at h
      cases hv : validate g urls with
      | exit m => simp only [hv] at h; cases h; exact validate_exit hv
      | undefined => simp only [hv] at h; cases h
      | ok g2 => simp only [hv] at h; cases h

theorem main_of_parse_exit {args : List String} (hp : parseArgs args = .exit 1)
    (oracle : BindOracle) :
    main oracle args = { status := .exit 1, attempts := [], sessions := [] } := by
  unfold main
  rw [hp]

/-- A successful pass hands back the tokens after the option's values. -/
theorem switchOption_suffix {g g1 : Globals} {opt : String} {rest argv1 : List String}
    (h : switchOption g opt rest = .ok (g1, argv1)) : ∃ vals, rest = vals ++ argv1 := by
  cases switchOption_ok h
  case v h1 _ => exact ⟨[], by simp [h1]⟩
  case V h1 _ => exact ⟨[], by simp [h1]⟩
  case t h1 _ => exact ⟨[], by simp [h1]⟩
  case R h1 _ => exact ⟨[], by simp [h1]⟩
  case C a b _ h1 _ => exact ⟨[a, b], by simp [h1]⟩
  case u a b _ h1 _ => exact ⟨[a, b], by simp [h1]⟩
  case U a b _ h1 _ => exact ⟨[a, b], by simp [h1]⟩
  case e a _ h1 _ _ => exact ⟨[a], by simp [h1]⟩
  case T a v _ h1 _ _ _ _ => exact ⟨[a], by simp [h1]⟩
  case p a v _ h1 _ _ _ _ => exact ⟨[a], by simp [h1]⟩
  case D a v _ h1 _ _ _ => exact ⟨[a], by simp [h1]⟩

/-- The tokens left by the loop are the tail end of the tokens it was given. -/
theorem optionLoop_suffix :
    ∀ (fuel : Nat) (g : Globals) (argv : List String) (g1 : Globals) (urls : List String),
      optionLoop fuel g argv = .ok (g1, urls) → ∃ pre, argv = pre ++ urls := by
  intro fuel
  induction fuel with
  | zero =>
    intro g argv g1 urls h
    cases argv <;> (cases h; exact ⟨[], rfl⟩)
  | succ fuel ih =>
    intro g argv g1 urls h
    cases argv with
    | nil => cases h; exact ⟨[], rfl⟩
    | cons opt rest =>
      rw [optionLoop_cons] at h
      split_ifs at h with h0
      · cases h; exact ⟨[], rfl⟩
      · cases hs : switchOption g opt rest with
        | exit n => simp only [hs] at h; cases h
        | undefined => simp only [hs] at h; cases h
        | ok a =>
          obtain ⟨g2, argv2⟩ := a
          simp only [hs] at h
          obtain ⟨vals, hv⟩ := switchOption_suffix hs
          obtain ⟨pre, hpre⟩ := ih g2 argv2 g1 urls h
          exact ⟨opt :: vals ++ pre, by rw [hv, hpre]; simp⟩

/-- With enough fuel the loop stops only at the end or at a token not starting with `-`. -/
theorem optionLoop_head :
    ∀ (fuel : Nat) (g : Globals) (argv : List String) (g1 : Globals) (urls : List String),
      argv.length ≤ fuel → optionLoop fuel g argv = .ok (g1, urls) →
      ∀ u, urls.head? = some u → charAt u 0 ≠ '-' := by
  intro fuel
  induction fuel with
  | zero =>
    intro g argv g1 urls hlen h u hu
    cases argv with
    | nil => cases h; cases hu
    | cons a l => simp at hlen
  | succ fuel ih =>
    intro g argv g1 urls hlen h u hu
    cases argv with
    | nil => cases h; cases hu
    | cons opt rest =>
      rw [optionLoop_cons] at h
      split_ifs at h with h0
      · cases h
        simp only [List.head?_cons, Option.some.injEq] at hu
        subst hu
        exact h0
      · cases hs : switchOption g opt rest with
        | exit n => simp only [hs] at h; cases h
        | undefined => simp only [hs] at h; cases h
        | ok a =>
          obtain ⟨g2, argv2⟩ := a
          simp only [hs] at h
          have hl := switchOption_length hs
          simp only [List.length_cons] at hlen
          exact ih g2 argv2 g1 urls (by omega) h u hu

theorem isRtspURL_iff (s : String) :
    isRtspURL s = true ↔ ∃ t, s.data = "rtsp://".data ++ t := by
  unfold isRtspURL
  rw [beq_iff_eq]
  constructor
  · intro h
    exact ⟨s.data.drop 7, by rw [← h, List.take_append_drop]⟩
  · rintro ⟨t, ht⟩
    rw [ht]
    rfl

theorem lastTunnelPort_some_mem (ps : List (Char × List String)) (port : Nat)
    (h : lastTunnelPort ps = some port) : 'T' ∈ ps.map Prod.fst := by
  induction ps using List.reverseRecOn with
  | nil => simp [lastTunnelPort] at h
  | append_singleton ps p ih =>
    obtain ⟨c, vals⟩ := p
    rw [lastTunnelPort_append] at h
    simp only [List.map_append, List.map_cons, List.map_nil, List.mem_append,
      List.mem_singleton]
    by_cases hc : c = 'T'
    · exact Or.inr hc.symm
    · rw [if_neg hc] at h
      exact Or.inl (ih h)

/-- C13. When the option loop leaves no positional URL and the options are otherwise
valid (not both `-t` and `-T`), validation passes exactly when `-R` was processed; in
particular `-R -U bob secret` passes with no URL, registration mode on and the
registration credential (bob, secret). -/
theorem zero_urls_pass_iff_register_mode (args : List String) (g : Globals)
    (hloop : optionLoop args.length initialGlobals args = .ok (g, []))
    (hvalid : ¬ ('t' ∈ g.letters ∧ 'T' ∈ g.letters)) :
    ((∃ g1, parseArgs args = .ok (g1, [])) ↔ 'R' ∈ g.letters) ∧
    ('R' ∈ g.letters → parseArgs args = .ok (buildAuthDB (markTCP g), [])) ∧
    ('R' ∉ g.letters → parseArgs args = .exit 1) := by
  obtain ⟨-, -, -, -, f5, f6⟩ := optionLoop_flags hloop
  obtain ⟨t1, t2, -⟩ := optionLoop_transport hloop
  have hyes : 'R' ∈ g.letters → parseArgs args = .ok (buildAuthDB (markTCP g), []) := by
    intro hR
    have hreg := f6.mp hR
    have hargs : ¬ args.length + 1 < 2 := by
      intro hlt
      have : args = [] := List.length_eq_zero.mp (by omega)
      subst this
      cases hloop
      simp [Globals.letters, initialGlobals] at hR
    have hv : validate g [] = .ok (buildAuthDB (markTCP g)) := by
      unfold validate
      rw [if_neg (by simp [hreg]), if_neg (by simp), if_neg (by simp [hreg]), if_neg]
      rintro ⟨hs, hT⟩
      refine hvalid ⟨t1.mpr hs, ?_⟩
      cases hlast : lastTunnelPort g.processed with
      | none => rw [t2, hlast] at hT; simp at hT
      | some port => exact lastTunnelPort_some_mem _ _ hlast
    unfold parseArgs
    rw [if_neg hargs, hloop]
    simp only [hv]
  have hno : 'R' ∉ g.letters → parseArgs args = .exit 1 := by
    intro hR
    have hreg : g.proxyREGISTERRequests = false := by
      cases hb : g.proxyREGISTERRequests with
      | false => rfl
      | true => exact absurd (f6.mpr hb) hR
    refine parseArgs_of_loop hloop ?_
    unfold validate usage
    rw [if_pos ⟨by simp, hreg⟩]
  refine ⟨⟨?_, fun hR => ⟨_, hyes hR⟩⟩, hyes, hno⟩
  rintro ⟨g1, h1⟩
  by_contra hR
  rw [hno hR] at h1
  cases h1

/-- C13 at `-R -U bob secret`: accepted with no URL. -/
theorem zero_urls_pass_iff_register_mode_witness :
    parseArgs ["-R", "-U", "bob", "secret"]
      = .ok ({ initialGlobals with
                 proxyREGISTERRequests := true, usernameForREGISTER := some "bob",
                 passwordForREGISTER := some "secret",
                 authDBForREGISTER := some [("bob", "secret")],
                 processed := [('R', []), ('U', ["bob", "secret"])] }, []) ∧
    parseArgs ["-U", "bob", "secret"] = .exit 1 :=
  ⟨(zero_urls_pass_iff_register_mode ["-R", "-U", "bob", "secret"]
      { initialGlobals with
          proxyREGISTERRequests := true, usernameForREGISTER := some "bob",
          passwordForREGISTER := some "secret",
          authDBForREGISTER := some [("bob", "secret")],
          processed := [('R', []), ('U', ["bob", "secret"])] }
      (by decide) (by decide)).2.1 (by decide),
   (zero_urls_pass_iff_register_mode ["-U", "bob", "secret"]
      { initialGlobals with
          usernameForREGISTER := some "bob", passwordForREGISTER := some "secret",
          authDBForREGISTER := some [("bob", "secret")],
          processed := [('U', ["bob", "secret"])] }
      (by decide) (by decide)).2.2 (by decide)⟩

/-- C14. The tokens the option loop leaves, from the first token that does not start
with `-` to the end, are the URL list: if one of them does not begin with `rtsp://`
validation calls `usage()`; in an accepted configuration every URL begins with
`rtsp://` and the URL list is that trailing part of the arguments, in input order. -/
theorem trailing_tokens_are_rtsp_urls (args : List String) :
    (∀ g urls, optionLoop args.length initialGlobals args = .ok (g, urls) →
      (∃ u ∈ urls, ¬ ∃ t, u.data = "rtsp://".data ++ t) →
      parseArgs args = .exit 1 ∧
      ∀ oracle : BindOracle,
        main oracle args = { status := .exit 1, attempts := [], sessions := [] }) ∧
    (∀ g urls, parseArgs args = .ok (g, urls) →
      (∀ u ∈ urls, ∃ t, u.data = "rtsp://".data ++ t) ∧
      (∃ options, args = options ++ urls) ∧
      (∀ u, urls.head? = some u → charAt u 0 ≠ '-') ∧
      (∃ g0, optionLoop args.length initialGlobals args = .ok (g0, urls))) := by
  constructor
  · intro g urls hloop hbad
    obtain ⟨u, hu, hnot⟩ := hbad
    have hv : validate g urls = .exit 1 := by
      unfold validate usage
      split_ifs with h1 h2
      · rfl
      · rfl
      · exfalso
        have hall : urls.all isRtspURL = true := by simpa using h2
        rw [List.all_eq_true] at hall
        exact hnot ((isRtspURL_iff u).mp (hall u hu))
      · exfalso
        have hall : urls.all isRtspURL = true := by simpa using h2
        rw [List.all_eq_true] at hall
        exact hnot ((isRtspURL_iff u).mp (hall u hu))
      · exfalso
        have hall : urls.all isRtspURL = true := by simpa using h2
        rw [List.all_eq_true] at hall
        exact hnot ((isRtspURL_iff u).mp (hall u hu))
    have hp := parseArgs_of_loop hloop hv
    exact ⟨hp, main_of_parse_exit hp⟩
  · intro g urls h
    obtain ⟨g0, hl, hv⟩ := parseArgs_ok h
    obtain ⟨-, -, hall, -⟩ := validate_ok_eq hv
    rw [List.all_eq_true] at hall
    refine ⟨fun u hu => (isRtspURL_iff u).mp (hall u hu), optionLoop_suffix _ _ _ _ _ hl,
      optionLoop_head _ _ _ _ _ (le_refl _) hl, ⟨g0, hl⟩⟩

/-- C14 at `-v rtsp://x/1 http://x/2` (rejected) and `-v rtsp://x/1 rtsp://x/2`. -/
theorem trailing_tokens_are_rtsp_urls_witness :
    parseArgs ["-v", "rtsp://x/1", "http://x/2"] = .exit 1 ∧
    ∃ options, ["-v", "rtsp://x/1", "rtsp://x/2"] = options ++ ["rtsp://x/1", "rtsp://x/2"] :=
  ⟨((trailing_tokens_are_rtsp_urls ["-v", "rtsp://x/1", "http://x/2"]).1
      { initialGlobals with verbosityLevel := 1, processed := [('v', [])] }
      ["rtsp://x/1", "http://x/2"] (by decide)
      ⟨"http://x/2", by decide, by
        rintro ⟨t, ht⟩
        revert ht
        simp⟩).1,
   ((trailing_tokens_are_rtsp_urls ["-v", "rtsp://x/1", "rtsp://x/2"]).2
      { initialGlobals with verbosityLevel := 1, processed := [('v', [])] }
      ["rtsp://x/1", "rtsp://x/2"] (by decide)).2.1⟩

/-- C16. When option parsing or validation rejects the command line, the exit status is
1 and the program has made no bind attempt and created no session. -/
theorem rejection_precedes_network (args : List String) (n : Nat)
    (h : parseArgs args = .exit n) :
    n = 1 ∧
    ∀ oracle : BindOracle,
      main oracle args = { status := .exit 1, attempts := [], sessions := [] } := by
  have hn := parseArgs_exit h
  subst hn
  exact ⟨rfl, main_of_parse_exit h⟩

/-- C16 at `-t -T 80 rtsp://x/y` (conflict) in an environment where every port is free. -/
theorem rejection_precedes_network_witness :
    main everyPortFree ["-t", "-T", "80", "rtsp://x/y"]
      = { status := .exit 1, attempts := [], sessions := [] } :=
  (rejection_precedes_network ["-t", "-T", "80", "rtsp://x/y"] 1 (by decide)).2 everyPortFree

/-- C20. A token in option position that starts with `-` and whose second character
is none of `v V t C e T p u U R D` (the bare `-` included) makes the program call
`usage()`; and the switch looks at the second character only: two option tokens with
the same second character are handled alike, whatever follows it. -/
theorem unrecognised_option_is_usage_error (args : List String) :
    (∀ g opt rest, Reaches args g (opt :: rest) → charAt opt 0 = '-' →
      charAt opt 1 ∉ ['v', 'V', 't', 'C', 'e', 'T', 'p', 'u', 'U', 'R', 'D'] →
      switchOption g opt rest = .exit 1 ∧ parseArgs args = .exit 1 ∧
      ∀ oracle : BindOracle,
        main oracle args = { status := .exit 1, attempts := [], sessions := [] }) ∧
    (∀ (g : Globals) (opt1 opt2 : String) (rest : List String),
      charAt opt1 1 = charAt opt2 1 →
      switchOption g opt1 rest = switchOption g opt2 rest) ∧
    (∀ (fuel : Nat) (g : Globals) (opt1 opt2 : String) (rest : List String),
      charAt opt1 0 = '-' → charAt opt2 0 = '-' → charAt opt1 1 = charAt opt2 1 →
      optionLoop (fuel + 1) g (opt1 :: rest) = optionLoop (fuel + 1) g (opt2 :: rest)) ∧
    charAt "-" 1 ∉ ['v', 'V', 't', 'C', 'e', 'T', 'p', 'u', 'U', 'R', 'D'] := by
  have hsame : ∀ (g : Globals) (opt1 opt2 : String) (rest : List String),
      charAt opt1 1 = charAt opt2 1 →
      switchOption g opt1 rest = switchOption g opt2 rest := by
    intro g opt1 opt2 rest h
    unfold switchOption
    rw [h]
  refine ⟨?_, hsame, ?_, by decide⟩
  · intro g opt rest hr h0 hunk
    simp only [List.mem_cons, List.mem_singleton, List.not_mem_nil, or_false, not_or] at hunk
    obtain ⟨h1, h2, h3, h4, h5, h6, h7, h8, h9, h10, h11⟩ := hunk
    have hsw : switchOption g opt rest = .exit 1 := by
      unfold switchOption
      rw [if_neg h1, if_neg h2, if_neg h3, if_neg h4, if_neg h5, if_neg h6, if_neg h7,
        if_neg h8, if_neg h9, if_neg h10, if_neg h11]
      rfl
    have hloop : optionLoop args.length initialGlobals args = .exit 1 := by
      rw [reaches_optionLoop hr, List.length_cons, optionLoop_cons, if_neg (by simp [h0]), hsw]
    have hp : parseArgs args = .exit 1 := by
      unfold parseArgs usage
      split_ifs
      · rfl
      · rw [hloop]
    exact ⟨hsw, hp, main_of_parse_exit hp⟩
  · intro fuel g opt1 opt2 rest h1 h2 h
    rw [optionLoop_cons, optionLoop_cons, if_neg (by simp [h1]), if_neg (by simp [h2]),
      hsame g opt1 opt2 rest h]

/-- C20 at `-x rtsp://x/y` and at the bare `-`; `-verbose` is read as `-v`. -/
theorem unrecognised_option_is_usage_error_witness :
    parseArgs ["-x", "rtsp://x/y"] = .exit 1 ∧
    parseArgs ["-", "rtsp://x/y"] = .exit 1 ∧
    switchOption initialGlobals "-verbose" ["rtsp://x/y"]
      = switchOption initialGlobals "-v" ["rtsp://x/y"] :=
  ⟨((unrecognised_option_is_usage_error ["-x", "rtsp://x/y"]).1 initialGlobals "-x"
      ["rtsp://x/y"] Reaches.start (by decide) (by decide)).2.1,
   ((unrecognised_option_is_usage_error ["-", "rtsp://x/y"]).1 initialGlobals "-"
      ["rtsp://x/y"] Reaches.start (by decide) (by decide)).2.1,
   (unrecognised_option_is_usage_error []).2.1 initialGlobals "-verbose" "-v" ["rtsp://x/y"]
      (by decide)⟩

/-! ## Stream names and the `streamName` buffer -/

/-- C17 (the code evaluated). With `-e thirteen_char` and two URLs the configuration
is accepted and the server is bound, but the format of line 295 is the freed text of
a destroyed temporary: what `sprintf` writes is undefined and no session named
`thirteen_char-1` is registered. With the 12-character base `twelve_chars`, and
without `-e`, the two sessions carry the names with suffix `-1` and `-2`. -/
theorem long_endpoint_format_is_read_after_free :
    danglingFormat "thirteen_char" = none ∧
    parseArgs ["-e", "thirteen_char", "rtsp://x/1", "rtsp://x/2"]
      = .ok ({ initialGlobals with endpoint := some "thirteen_char",
                                   processed := [('e', ["thirteen_char"])] },
             ["rtsp://x/1", "rtsp://x/2"]) ∧
    main everyPortFree ["-e", "thirteen_char", "rtsp://x/1", "rtsp://x/2"]
      = { status := .undefined, attempts := [554], sessions := [] } ∧
    (main everyPortFree ["-e", "twelve_chars", "rtsp://x/1", "rtsp://x/2"]).sessions.map
        (fun sms => (sms.proxiedStreamURL, sms.streamName))
      = [("rtsp://x/1", "twelve_chars-1"), ("rtsp://x/2", "twelve_chars-2")] ∧
    (main everyPortFree ["rtsp://x/1", "rtsp://x/2"]).sessions.map
        (fun sms => (sms.proxiedStreamURL, sms.streamName))
      = [("rtsp://x/1", "proxyStream-1"), ("rtsp://x/2", "proxyStream-2")] := by
  decide

/-! ## The order of the options -/

/-- On a well-grouped option the switch does what `parseGroup` says. -/
theorem switchOption_group (x : OptionGroup) (hx : x.wellGrouped) (g : Globals)
    (rest : List String) :
    switchOption g x.flag (x.values ++ rest)
      = match parseGroup x.letter x.values with
        | some o => .ok (o.apply g, rest)
        | none => .exit 1 := by
  obtain ⟨-, harity⟩ := hx
  unfold switchOption parseGroup
  unfold OptionGroup.letter at harity ⊢
  generalize charAt x.flag 1 = c at harity ⊢
  generalize x.values = vals at harity ⊢
  by_cases hv : c = 'v'
  · rw [if_pos hv, if_pos hv]
    subst hv
    have : vals = [] := List.length_eq_zero.mp harity
    subst this
    rfl
  rw [if_neg hv, if_neg hv]
  by_cases hV : c = 'V'
  · rw [if_pos hV, if_pos hV]
    subst hV
    have : vals = [] := List.length_eq_zero.mp harity
    subst this
    rfl
  rw [if_neg hV, if_neg hV]
  by_cases ht : c = 't'
  · rw [if_pos ht, if_pos ht]
    subst ht
    have : vals = [] := List.length_eq_zero.mp harity
    subst this
    rfl
  rw [if_neg ht, if_neg ht]
  by_cases hC : c = 'C'
  · rw [if_pos hC, if_pos hC]
    subst hC
    obtain ⟨a, b, rfl⟩ := List.length_eq_two.mp harity
    rfl
  rw [if_neg hC, if_neg hC]
  by_cases he : c = 'e'
  · rw [if_pos he, if_pos he]
    subst he
    obtain ⟨a, rfl⟩ := List.length_eq_one.mp harity
    simp only [List.singleton_append, caseE, usage]
    split_ifs <;> rfl
  rw [if_neg he, if_neg he]
  by_cases hT : c = 'T'
  · rw [if_pos hT, if_pos hT]
    subst hT
    obtain ⟨a, rfl⟩ := List.length_eq_one.mp harity
    simp only [List.singleton_append, caseTunnel, usage]
    split_ifs with h0
    · cases sscanf_hu a with
      | none => rfl
      | some v =>
        simp only
        split_ifs <;> rfl
    · rfl
  rw [if_neg hT, if_neg hT]
  by_cases hp : c = 'p'
  · rw [if_pos hp, if_pos hp]
    subst hp
    obtain ⟨a, rfl⟩ := List.length_eq_one.mp harity
    simp only [List.singleton_append, caseP, usage]
    split_ifs with h0
    · cases sscanf_hu a with
      | none => rfl
      | some v =>
        simp only
        split_ifs <;> rfl
    · rfl
  rw [if_neg hp, if_neg hp]
  by_cases hu : c = 'u'
  · rw [if_pos hu, if_pos hu]
    subst hu
    obtain ⟨a, b, rfl⟩ := List.length_eq_two.mp harity
    rfl
  rw [if_neg hu, if_neg hu]
  by_cases hU : c = 'U'
  · rw [if_pos hU, if_pos hU]
    subst hU
    obtain ⟨a, b, rfl⟩ := List.length_eq_two.mp harity
    rfl
  rw [if_neg hU, if_neg hU]
  by_cases hR : c = 'R'
  · rw [if_pos hR, if_pos hR]
    subst hR
    have : vals = [] := List.length_eq_zero.mp harity
    subst this
    rfl
  rw [if_neg hR, if_neg hR]
  by_cases hD : c = 'D'
  · rw [if_pos hD, if_pos hD]
    subst hD
    obtain ⟨a, rfl⟩ := List.length_eq_one.mp harity
    simp only [List.singleton_append, caseD, usage]
    split_ifs with h0
    · cases sscanf_u a with
      | none => rfl
      | some v => rfl
    · rfl
  rw [if_neg hD, if_neg hD]
  rfl

theorem parseGroup_letter {c : Char} {vals : List String} {o : ParsedOption}
    (h : parseGroup c vals = some o) : o.letter = c := by
  unfold parseGroup at h
  by_cases hv : c = 'v'
  · rw [if_pos hv] at h; cases h; exact hv.symm
  rw [if_neg hv] at h
  by_cases hV : c = 'V'
  · rw [if_pos hV] at h; cases h; exact hV.symm
  rw [if_neg hV] at h
  by_cases ht : c = 't'
  · rw [if_pos ht] at h; cases h; exact ht.symm
  rw [if_neg ht] at h
  by_cases hC : c = 'C'
  · rw [if_pos hC] at h
    split at h
    · cases h; exact hC.symm
    · cases h
  rw [if_neg hC] at h
  by_cases he : c = 'e'
  · rw [if_pos he] at h
    split at h
    · split_ifs at h
      cases h; exact he.symm
    · cases h
  rw [if_neg he] at h
  by_cases hT : c = 'T'
  · rw [if_pos hT] at h
    split at h
    · by_cases h0 : charAt ‹String› 0 ≠ '-'
      · rw [if_pos h0] at h
        split at h
        · split_ifs at h
          cases h; exact hT.symm
        · cases h
      · rw [if_neg h0] at h; cases h
    · cases h
  rw [if_neg hT] at h
  by_cases hp : c = 'p'
  · rw [if_pos hp] at h
    split at h
    · by_cases h0 : charAt ‹String› 0 ≠ '-'
      · rw [if_pos h0] at h
        split at h
        · split_ifs at h
          cases h; exact hp.symm
        · cases h
      · rw [if_neg h0] at h; cases h
    · cases h
  rw [if_neg hp] at h
  by_cases hu : c = 'u'
  · rw [if_pos hu] at h
    split at h
    · cases h; exact hu.symm
    · cases h
  rw [if_neg hu] at h
  by_cases hU : c = 'U'
  · rw [if_pos hU] at h
    split at h
    · cases h; exact hU.symm
    · cases h
  rw [if_neg hU] at h
  by_cases hR : c = 'R'
  · rw [if_pos hR] at h; cases h; exact hR.symm
  rw [if_neg hR] at h
  by_cases hD : c = 'D'
  · rw [if_pos hD] at h
    split at h
    · by_cases h0 : charAt ‹String› 0 ≠ '-'
      · rw [if_pos h0] at h
        split at h
        · cases h; exact hD.symm
        · cases h
      · rw [if_neg h0] at h; cases h
    · cases h
  rw [if_neg hD] at h
  cases h

/-- Globals with the same configuration differ in the record of processed options only. -/
theorem config_eq {g g1 : Globals} (h : g.config = g1.config) :
    g1 = { g with processed := g1.processed } := by
  cases g
  cases g1
  simp only [Globals.config, Globals.mk.injEq] at h
  obtain ⟨h1, h2, h3, h4, h5, h6, h7, h8, h9, h10, h11, h12, h13, h14, h15, h16, -⟩ := h
  subst h1 h2 h3 h4 h5 h6 h7 h8 h9 h10 h11 h12 h13 h14 h15 h16
  rfl

theorem ParsedOption.apply_config (o : ParsedOption) {g g1 : Globals}
    (h : g.config = g1.config) : (o.apply g).config = (o.apply g1).config := by
  rw [config_eq h]
  cases o <;> rfl

/-- Two accepted options that are not the same option, and not `-v` with `-V`, can be
applied in either order. -/
theorem ParsedOption.apply_comm (o1 o2 : ParsedOption) (g : Globals)
    (hne : o1.letter ≠ o2.letter) :
    (o1.apply (o2.apply g)).config = (o2.apply (o1.apply g)).config ∨
    (o1.letter = 'v' ∧ o2.letter = 'V') ∨ (o1.letter = 'V' ∧ o2.letter = 'v') := by
  cases o1 <;> cases o2 <;>
    first
      | exact Or.inl rfl
      | exact absurd rfl hne
      | (rename_i b1 b2
         cases b1 <;> cases b2 <;>
           first
             | exact absurd rfl hne
             | exact Or.inr (Or.inl ⟨rfl, rfl⟩)
             | exact Or.inr (Or.inr ⟨rfl, rfl⟩))

theorem runGroups_config (groups : List OptionGroup) :
    ∀ {g g1 : Globals}, g.config = g1.config →
      (runGroups groups g).map Globals.config = (runGroups groups g1).map Globals.config := by
  induction groups with
  | nil => intro g g1 h; simp only [runGroups, Outcome.map, h]
  | cons x xs ih =>
    intro g g1 h
    unfold runGroups
    cases parseGroup x.letter x.values with
    | none => rfl
    | some o => exact ih (o.apply_config h)

/-- Permuting compatible groups does not change the configuration they produce. -/
theorem runGroups_perm {groups1 groups2 : List OptionGroup} (hperm : groups1.Perm groups2)
    (hcompat : groups1.Pairwise OptionGroup.compatible) :
    ∀ {g g1 : Globals}, g.config = g1.config →
      (runGroups groups1 g).map Globals.config
        = (runGroups groups2 g1).map Globals.config := by
  have hsymm : ∀ {a b : OptionGroup}, a.compatible b → b.compatible a := by
    intro a b h
    exact ⟨fun e => h.1 e.symm, fun e => h.2.2 ⟨e.2, e.1⟩, fun e => h.2.1 ⟨e.2, e.1⟩⟩
  induction hperm with
  | nil => intro g g1 h; simp only [runGroups, Outcome.map, h]
  | cons x _ ih =>
    intro g g1 h
    unfold runGroups
    cases parseGroup x.letter x.values with
    | none => rfl
    | some o => exact ih (List.pairwise_cons.mp hcompat).2 (o.apply_config h)
  | swap x y l =>
    intro g g1 h
    have hyx : y.compatible x := (List.pairwise_cons.mp hcompat).1 x (List.mem_cons_self _ _)
    unfold runGroups
    cases hy : parseGroup y.letter y.values with
    | none =>
      cases hx : parseGroup x.letter x.values with
      | none => rfl
      | some ox => simp only [runGroups, hy]
    | some oy =>
      cases hx : parseGroup x.letter x.values with
      | none => simp only [runGroups, hx]
      | some ox =>
        simp only [runGroups, hx, hy]
        have hly := parseGroup_letter hy
        have hlx := parseGroup_letter hx
        have hcomm := ParsedOption.apply_comm ox oy g (by rw [hlx, hly]; exact fun e => hyx.1 e.symm)
        rw [hlx, hly] at hcomm
        rcases hcomm with hc | hc | hc
        · refine runGroups_config l ?_
          rw [hc]
          exact oy.apply_config (ox.apply_config h)
        · exact absurd ⟨hc.2, hc.1⟩ hyx.2.2
        · exact absurd ⟨hc.2, hc.1⟩ hyx.2.1
  | trans h1 _ ih1 ih2 =>
    intro g g1 h
    have hc2 := (h1.pairwise_iff (fun {a b} => hsymm)).mp hcompat
    exact (ih1 hcompat rfl).trans (ih2 hc2 h)

theorem commandLine_cons (x : OptionGroup) (xs : List OptionGroup) (urls : List String) :
    commandLine (x :: xs) urls = x.flag :: (x.values ++ commandLine xs urls) := by
  simp [commandLine, OptionGroup.tokens]

theorem commandLine_length_perm {groups1 groups2 : List OptionGroup}
    (hperm : groups1.Perm groups2) (urls : List String) :
    (commandLine groups1 urls).length = (commandLine groups2 urls).length := by
  induction hperm with
  | nil => rfl
  | cons x _ ih => simp only [commandLine_cons, List.length_cons, List.length_append, ih]
  | swap x y l =>
    simp only [commandLine_cons, List.length_cons, List.length_append]
    omega
  | trans _ _ ih1 ih2 => exact ih1.trans ih2

/-- The loop stops at once on a URL list: it is empty or starts with a token that does
not start with `-`. -/
theorem optionLoop_urls (g : Globals) (urls : List String)
    (hurls : ∀ u, urls.head? = some u → charAt u 0 ≠ '-') (fuel : Nat) :
    optionLoop fuel g urls = .ok (g, urls) := by
  cases urls with
  | nil => exact optionLoop_nil fuel g
  | cons u us =>
    cases fuel with
    | zero => rfl
    | succ fuel => rw [optionLoop_cons, if_pos (hurls u rfl)]

/-- The option loop on well-grouped options followed by URLs does what `runGroups`
says on the groups and then stops at the URLs. -/
theorem optionLoop_groups (urls : List String)
    (hurls : ∀ u, urls.head? = some u → charAt u 0 ≠ '-') :
    ∀ (groups : List OptionGroup), (∀ x ∈ groups, x.wellGrouped) → ∀ (g : Globals),
      optionLoop (commandLine groups urls).length g (commandLine groups urls)
        = (runGroups groups g).map fun g1 => (g1, urls) := by
  intro groups
  induction groups with
  | nil =>
    intro _ g
    simp only [commandLine, List.foldr_nil, runGroups, Outcome.map]
    exact optionLoop_urls g urls hurls _
  | cons x xs ih =>
    intro hwell g
    have hx := hwell x (List.mem_cons_self _ _)
    rw [commandLine_cons, List.length_cons, optionLoop_cons, if_neg (by simp [hx.1]),
      switchOption_group x hx g]
    unfold runGroups
    cases parseGroup x.letter x.values with
    | none => rfl
    | some o =>
      simp only
      rw [optionLoop_fuel _ _ _ (by simp)]
      exact ih (fun y hy => hwell y (List.mem_cons_of_mem _ hy)) _

theorem validate_config {g g1 : Globals} (h : g.config = g1.config) (urls : List String) :
    (validate g urls).map Globals.config = (validate g1 urls).map Globals.config := by
  rw [config_eq h]
  unfold validate
  dsimp only
  split_ifs <;> first | rfl | (unfold buildAuthDB markTCP; dsimp only; split_ifs <;> rfl)

theorem parseArgs_groups (groups : List OptionGroup) (urls : List String)
    (hwell : ∀ x ∈ groups, x.wellGrouped)
    (hurls : ∀ u, urls.head? = some u → charAt u 0 ≠ '-') :
    parseArgs (commandLine groups urls)
      = if (commandLine groups urls).length + 1 < 2 then .exit 1
        else
          match runGroups groups initialGlobals with
          | .ok g =>
            match validate g urls with
            | .ok g1 => .ok (g1, urls)
            | .exit n => .exit n
            | .undefined => .undefined
          | .exit n => .exit n
          | .undefined => .undefined := by
  unfold parseArgs usage
  rw [optionLoop_groups urls hurls groups hwell]
  cases runGroups groups initialGlobals <;> rfl

/-- C18. For well-grouped options in which no option appears twice and `-v` and `-V`
do not both appear, followed by a positional URL list, every permutation of the
groups gives the same parse outcome: the same configuration and URLs, or the same
failure. -/
theorem option_order_does_not_matter (groups groups1 : List OptionGroup)
    (urls : List String) (hperm : groups1.Perm groups)
    (hwell : ∀ x ∈ groups, x.wellGrouped)
    (hcompat : groups.Pairwise OptionGroup.compatible)
    (hurls : ∀ u, urls.head? = some u → charAt u 0 ≠ '-') :
    (parseArgs (commandLine groups1 urls)).config
      = (parseArgs (commandLine groups urls)).config := by
  have hwell1 : ∀ x ∈ groups1, x.wellGrouped := fun x hx => hwell x (hperm.mem_iff.mp hx)
  rw [parseArgs_groups groups1 urls hwell1 hurls, parseArgs_groups groups urls hwell hurls,
    commandLine_length_perm hperm urls]
  split_ifs
  · rfl
  · have hrun := runGroups_perm hperm.symm hcompat (rfl : initialGlobals.config = _)
    cases h1 : runGroups groups1 initialGlobals with
    | exit n =>
      rw [h1] at hrun
      cases h2 : runGroups groups initialGlobals with
      | exit m => rw [h2] at hrun; simp only [Outcome.map] at hrun; cases hrun; rfl
      | undefined => rw [h2] at hrun; cases hrun
      | ok g2 => rw [h2] at hrun; cases hrun
    | undefined =>
      rw [h1] at hrun
      cases h2 : runGroups groups initialGlobals with
      | exit m => rw [h2] at hrun; cases hrun
      | undefined => rfl
      | ok g2 => rw [h2] at hrun; cases hrun
    | ok g1 =>
      rw [h1] at hrun
      cases h2 : runGroups groups initialGlobals with
      | exit m => rw [h2] at hrun; cases hrun
      | undefined => rw [h2] at hrun; cases hrun
      | ok g2 =>
        rw [h2] at hrun
        simp only [Outcome.map, Outcome.ok.injEq] at hrun
        have hval := validate_config hrun.symm urls
        simp only
        cases v1 : validate g1 urls with
        | exit n =>
          rw [v1] at hval
          cases v2 : validate g2 urls with
          | exit m => rw [v2] at hval; simp only [Outcome.map] at hval; cases hval; rfl
          | undefined => rw [v2] at hval; cases hval
          | ok a => rw [v2] at hval; cases hval
        | undefined =>
          rw [v1] at hval
          cases v2 : validate g2 urls with
          | exit m => rw [v2] at hval; cases hval
          | undefined => rfl
          | ok a => rw [v2] at hval; cases hval
        | ok a =>
          rw [v1] at hval
          cases v2 : validate g2 urls with
          | exit m => rw [v2] at hval; cases hval
          | undefined => rw [v2] at hval; cases hval
          | ok b =>
            rw [v2] at hval
            simp only [Outcome.map, Outcome.ok.injEq] at hval
            simp only [Outcome.config, Outcome.map, hval]

/-- C18 at the groups `-v`, `-p 8554`, `-u al pw` and their reversal, before one URL. -/
theorem option_order_does_not_matter_witness :
    (parseArgs ["-u", "al", "pw", "-p", "8554", "-v", "rtsp://x/y"]).config
      = (parseArgs ["-v", "-p", "8554", "-u", "al", "pw", "rtsp://x/y"]).config :=
  option_order_does_not_matter
    [⟨"-v", []⟩, ⟨"-p", ["8554"]⟩, ⟨"-u", ["al", "pw"]⟩]
    [⟨"-u", ["al", "pw"]⟩, ⟨"-p", ["8554"]⟩, ⟨"-v", []⟩]
    ["rtsp://x/y"] (by decide) (by decide) (by decide) (by decide)


end ProxyServer
